import Mathlib

/-!
Verification development for the cryptolens Go client
(package `cryptolens`, file `cryptolens.go`).

The embedding models Go byte strings as `List (Fin 256)`.  The JSON and XML
documents exchanged by the library are modelled by an abstract-syntax type
together with executable parsers and serializers that mirror the behaviour of
the Go standard library on the integral/ASCII fragment this protocol uses
(JSON numbers are decoded into Go integer fields by this library, so the
embedding's JSON numbers are integers).
-/

set_option maxRecDepth 10000

/-- Go byte strings (`[]byte` and `string` both are byte sequences in Go). -/
abbrev GoStr := List (Fin 256)

/-- A byte from a natural number (truncating, as Go byte conversions do). -/
def byteOf (n : Nat) : Fin 256 := ⟨n % 256, Nat.mod_lt _ (by omega)⟩

/-- ASCII bytes of a Lean string literal (used for the protocol's field
names, which are all ASCII). -/
def strB (s : String) : GoStr := s.data.map (fun c => byteOf c.toNat)

/-- Error outcomes of the Go library calls used by `cryptolens.go`.  Go
returns opaque `error` values; the model distinguishes just the producing
library call. -/
inductive GoError where
  /-- `encoding/json`: input is not syntactically valid JSON. -/
  | jsonSyntax : GoError
  /-- `encoding/json`: a JSON value has the wrong type for the target field
  (including integer overflow of an int/int64 field). -/
  | jsonType : GoError
  /-- `encoding/base64`: corrupt base64 input. -/
  | b64Corrupt : GoError
  /-- `encoding/xml`: malformed document. -/
  | xmlMalformed : GoError
deriving DecidableEq

/-- JSON values (the integral fragment: numbers are integers, which is all
this protocol carries — every numeric field is decoded into a Go
int/int64). -/
inductive Json where
  | null : Json
  | bool (b : Bool) : Json
  | num (i : Int) : Json
  | str (s : GoStr) : Json
  | arr (elems : List Json) : Json
  | obj (members : List (GoStr × Json)) : Json

/-! ### JSON concrete syntax: parser

A recursive-descent parser over byte lists mirroring `encoding/json`'s
grammar on the fragment above.  `fuel` only bounds nesting of the mutual
recursion; it is instantiated with the input length, which is an upper bound
on any derivation depth. -/

/-- JSON whitespace bytes (space, tab, newline, carriage return). -/
def isWs (c : Fin 256) : Bool := c == 32 || c == 9 || c == 10 || c == 13

/-- Skip leading JSON whitespace. -/
def skipWs : GoStr → GoStr
  | [] => []
  | c :: rest => if isWs c then skipWs rest else c :: rest

/-- Translate a JSON string escape character (the byte after a backslash). -/
def unescape (c : Fin 256) : Option (Fin 256) :=
  if c == 34 then some 34        -- \"
  else if c == 92 then some 92   -- backslash
  else if c == 47 then some 47   -- \/
  else if c == 98 then some 8    -- \b
  else if c == 102 then some 12  -- \f
  else if c == 110 then some 10  -- \n
  else if c == 114 then some 13  -- \r
  else if c == 116 then some 9   -- \t
  else none

/-- Parse a JSON string body (after the opening quote), returning the decoded
bytes and the remaining input after the closing quote. -/
def parseStrBody : GoStr → Except GoError (GoStr × GoStr)
  | [] => .error .jsonSyntax
  | c :: rest =>
    if c == 34 then .ok ([], rest)
    else if c == 92 then
      match rest with
      | [] => .error .jsonSyntax
      | e :: rest2 =>
        match unescape e with
        | some c2 => (parseStrBody rest2).map (fun p => (c2 :: p.1, p.2))
        | none => .error .jsonSyntax
    else if c < 32 then .error .jsonSyntax
    else (parseStrBody rest).map (fun p => (c :: p.1, p.2))

/-- ASCII decimal digit. -/
def isDigit (c : Fin 256) : Bool := 48 ≤ c && c ≤ 57

/-- Consume a run of decimal digits, accumulating their value. -/
def parseDigits : GoStr → Nat → Nat × GoStr
  | [], acc => (acc, [])
  | c :: rest, acc =>
    if isDigit c then parseDigits rest (acc * 10 + (c.val - 48)) else (acc, c :: rest)

/-- Parse a JSON integer (optional minus sign, then at least one digit). -/
def parseNum : GoStr → Except GoError (Int × GoStr)
  | [] => .error .jsonSyntax
  | c :: rest =>
    if c == 45 then
      match rest with
      | d :: rest2 =>
        if isDigit d then
          let p := parseDigits (d :: rest2) 0
          .ok (-(p.1 : Int), p.2)
        else .error .jsonSyntax
      | [] => .error .jsonSyntax
    else if isDigit c then
      let p := parseDigits (c :: rest) 0
      .ok ((p.1 : Int), p.2)
    else .error .jsonSyntax

/-- Does the input start with the given literal bytes? -/
def startsWith : GoStr → GoStr → Bool
  | [], _ => true
  | _ :: _, [] => false
  | p :: ps, c :: cs => p == c && startsWith ps cs

mutual

/-- Parse one JSON value; returns it with the remaining input. -/
def parseValue : Nat → GoStr → Except GoError (Json × GoStr)
  | 0, _ => .error .jsonSyntax
  | fuel + 1, l =>
    match skipWs l with
    | [] => .error .jsonSyntax
    | c :: rest =>
      if c == 34 then
        (parseStrBody rest).map (fun p => (Json.str p.1, p.2))
      else if c == 123 then
        match skipWs rest with
        | 125 :: r => .ok (Json.obj [], r)
        | _ => (parseMembers fuel rest).map (fun p => (Json.obj p.1, p.2))
      else if c == 91 then
        match skipWs rest with
        | 93 :: r => .ok (Json.arr [], r)
        | _ => (parseElems fuel rest).map (fun p => (Json.arr p.1, p.2))
      else if startsWith (strB "true") (c :: rest) then
        .ok (Json.bool true, (c :: rest).drop 4)
      else if startsWith (strB "false") (c :: rest) then
        .ok (Json.bool false, (c :: rest).drop 5)
      else if startsWith (strB "null") (c :: rest) then
        .ok (Json.null, (c :: rest).drop 4)
      else
        (parseNum (c :: rest)).map (fun p => (Json.num p.1, p.2))

/-- Parse the members of a JSON object (at least one; the caller handles
the empty object), consuming the closing brace. -/
def parseMembers : Nat → GoStr → Except GoError (List (GoStr × Json) × GoStr)
  | 0, _ => .error .jsonSyntax
  | fuel + 1, l =>
    match skipWs l with
    | 34 :: rest =>
      match parseStrBody rest with
      | .error e => .error e
      | .ok (k, r1) =>
        match skipWs r1 with
        | 58 :: r2 =>
          match parseValue fuel r2 with
          | .error e => .error e
          | .ok (v, r3) =>
            match skipWs r3 with
            | 44 :: r4 =>
              (parseMembers fuel r4).map (fun p => ((k, v) :: p.1, p.2))
            | 125 :: r4 => .ok ([(k, v)], r4)
            | _ => .error .jsonSyntax
        | _ => .error .jsonSyntax
    | _ => .error .jsonSyntax

/-- Parse the elements of a JSON array (at least one; the caller handles
the empty array), consuming the closing bracket. -/
def parseElems : Nat → GoStr → Except GoError (List Json × GoStr)
  | 0, _ => .error .jsonSyntax
  | fuel + 1, l =>
    match parseValue fuel l with
    | .error e => .error e
    | .ok (v, r1) =>
      match skipWs r1 with
      | 44 :: r2 => (parseElems fuel r2).map (fun p => (v :: p.1, p.2))
      | 93 :: r2 => .ok ([v], r2)
      | _ => .error .jsonSyntax

end

/-- Model of `encoding/json` syntax checking: parse a whole document
(one JSON value followed only by whitespace). -/
def jsonParse (l : GoStr) : Except GoError Json :=
  match parseValue (l.length + 1) l with
  | .error e => .error e
  | .ok (j, rest) => if skipWs rest = [] then .ok j else .error .jsonSyntax

/-! ### JSON concrete syntax: serializer (model of `json.Marshal` output) -/

/-- Hex digit byte for a value below 16 (lower case, as Go emits). -/
def hexDigit (n : Nat) : Fin 256 :=
  if n < 10 then byteOf (48 + n) else byteOf (87 + n)

/-- Escape one byte of a JSON string the way `json.Marshal` does (with its
default HTML escaping of `<`, `>`, `&`). -/
def escChar (c : Fin 256) : GoStr :=
  if c == 34 then [92, 34]
  else if c == 92 then [92, 92]
  else if c == 10 then [92, 110]
  else if c == 13 then [92, 114]
  else if c == 9 then [92, 116]
  else if c < 32 then [92, 117, 48, 48, hexDigit (c.val / 16), hexDigit (c.val % 16)]
  else if c == 60 || c == 62 || c == 38 then
    [92, 117, 48, 48, hexDigit (c.val / 16), hexDigit (c.val % 16)]
  else [c]

/-- Decimal digits of a natural number. -/
def natDigits (n : Nat) : GoStr :=
  (Nat.toDigits 10 n).map (fun c => byteOf c.toNat)

/-- Decimal representation of an integer. -/
def intDigits (i : Int) : GoStr :=
  if i < 0 then 45 :: natDigits i.natAbs else natDigits i.natAbs

/-- Serialized JSON string literal. -/
def serStr (s : GoStr) : GoStr := 34 :: s.flatMap escChar ++ [34]

/-! ### Base64 (model of `encoding/base64` `StdEncoding`) -/

/-- The standard base64 alphabet, as bytes (`encodeStd` in `encoding/base64`). -/
def b64alphabet : GoStr :=
  strB "ABCDEFGHIJKLMNOPQRSTUVWXYZabcdefghijklmnopqrstuvwxyz0123456789+/"

/-- The alphabet byte for a 6-bit group. -/
def sextet (n : Nat) : Fin 256 := b64alphabet.getD (n % 64) 0

/-- Index of a byte in a list (used to model the base64 decode map). -/
def findIdx : GoStr → Nat → Fin 256 → Option Nat
  | [], _, _ => none
  | a :: rest, i, c => if a == c then some i else findIdx rest (i + 1) c

/-- The 6-bit value of an alphabet byte, `none` for bytes outside the
alphabet (this is `decodeMap` in `encoding/base64`). -/
def decSextet (c : Fin 256) : Option Nat := findIdx b64alphabet 0 c

/-- `EncodeToString` of `base64.StdEncoding`: three input bytes become four
alphabet bytes; a final group of one or two bytes is padded with `=`. -/
def b64encode : GoStr → GoStr
  | [] => []
  | [a] => sextet (a.val / 4) :: sextet (a.val % 4 * 16) :: 61 :: 61 :: []
  | [a, b] =>
    sextet (a.val / 4) :: sextet (a.val % 4 * 16 + b.val / 16) ::
      sextet (b.val % 16 * 4) :: 61 :: []
  | a :: b :: c :: rest =>
    sextet (a.val / 4) :: sextet (a.val % 4 * 16 + b.val / 16) ::
      sextet (b.val % 16 * 4 + c.val / 64) :: sextet (c.val % 64) :: b64encode rest

/-- Decode a padded base64 quad sequence (`=` may appear only at the very
end, closing the final quad as `xx==` or `xxx=`; any other shape is a
`CorruptInputError`).  Like Go's decoder, trailing bits left over by the
padding are not checked (`StdEncoding` is not strict). -/
def b64decodeQuads : GoStr → Except GoError GoStr
  | [] => .ok []
  | a :: b :: c :: d :: rest =>
    match decSextet a, decSextet b with
    | some x, some y =>
      if d == 61 then
        if rest.isEmpty then
          if c == 61 then .ok [byteOf (x * 4 + y / 16)]
          else
            match decSextet c with
            | some z => .ok [byteOf (x * 4 + y / 16), byteOf (y % 16 * 16 + z / 4)]
            | none => .error .b64Corrupt
        else .error .b64Corrupt
      else
        match decSextet c, decSextet d with
        | some z, some w =>
          (b64decodeQuads rest).map
            (fun tl => byteOf (x * 4 + y / 16) :: byteOf (y % 16 * 16 + z / 4) ::
              byteOf (z % 4 * 64 + w) :: tl)
        | _, _ => .error .b64Corrupt
    | _, _ => .error .b64Corrupt
  | _ => .error .b64Corrupt

/-- `DecodeString` of `base64.StdEncoding`: carriage returns and newlines
are ignored, then the input must be a whole number of quads. -/
def b64decode (l : GoStr) : Except GoError GoStr :=
  b64decodeQuads (l.filter (fun c => !(c == 10 || c == 13)))

/-! ### Data model (the structs of `cryptolens.go`) -/

/-- Model of Go's `time.Time` as produced by `time.Unix(sec, 0)`: an
absolute instant, identified by its count of seconds since the Unix
epoch. -/
structure GoTime where
  unixSec : Int := 0
deriving DecidableEq

/-- `time.Unix(sec, 0)`. -/
def timeUnix (sec : Int) : GoTime := ⟨sec⟩

/-- The Unix epoch instant (`time.Unix(0, 0)`). -/
def unixEpoch : GoTime := ⟨0⟩

/-- `Customer` struct. -/
structure Customer where
  Id : Int := 0
  Name : GoStr := []
  Email : GoStr := []
  CompanyName : GoStr := []
  Created : GoTime := {}
deriving DecidableEq

/-- `ActivationData` struct. -/
structure ActivationData where
  Mid : GoStr := []
  IP : GoStr := []
  Time : GoTime := {}
deriving DecidableEq

/-- `DataObject` struct. -/
structure DataObject where
  Id : Int := 0
  Name : GoStr := []
  StringValue : GoStr := []
  IntValue : Int := 0
deriving DecidableEq

/-- `LicenseKey` struct (Go `int`/`int64` fields are modelled as `Int`;
the library runs on 64-bit platforms, where both are 64-bit). -/
structure LicenseKey where
  ProductId : Int := 0
  Id : Int := 0
  Key : GoStr := []
  Created : GoTime := {}
  Expires : GoTime := {}
  Period : Int := 0
  F1 : Bool := false
  F2 : Bool := false
  F3 : Bool := false
  F4 : Bool := false
  F5 : Bool := false
  F6 : Bool := false
  F7 : Bool := false
  F8 : Bool := false
  Notes : GoStr := []
  Block : Bool := false
  GlobalId : Int := 0
  Customer : Customer := {}
  ActivatedMachines : List ActivationData := []
  TrialActivation : Bool := false
  MaxNoOfMachines : Int := 0
  AllowedMachines : List GoStr := []
  DataObjects : List DataObject := []
  SignDate : GoTime := {}
  licenseKeyBytes : GoStr := []
  signatureBytes : GoStr := []
deriving DecidableEq

/-- The `activateResponse` struct. -/
structure ActivateResponseT where
  LicenseKey : GoStr := []
  Signature : GoStr := []
  Result : Int := 0
  Message : GoStr := []
deriving DecidableEq

/-- The anonymous temporary struct inside `LicenseKey.UnmarshalJSON`
(timestamps still as epoch seconds, `AllowedMachines` still one string). -/
structure LicenseKeyTemp where
  ProductId : Int := 0
  Id : Int := 0
  Key : GoStr := []
  Created : Int := 0
  Expires : Int := 0
  Period : Int := 0
  F1 : Bool := false
  F2 : Bool := false
  F3 : Bool := false
  F4 : Bool := false
  F5 : Bool := false
  F6 : Bool := false
  F7 : Bool := false
  F8 : Bool := false
  Notes : GoStr := []
  Block : Bool := false
  GlobalId : Int := 0
  Customer : Customer := {}
  ActivatedMachines : List ActivationData := []
  TrialActivation : Bool := false
  MaxNoOfMachines : Int := 0
  AllowedMachines : GoStr := []
  DataObjects : List DataObject := []
  SignDate : Int := 0
deriving DecidableEq

/-- The anonymous temporary struct inside `Customer.UnmarshalJSON`. -/
structure CustomerTemp where
  Id : Int := 0
  Name : GoStr := []
  Email : GoStr := []
  CompanyName : GoStr := []
  Created : Int := 0
deriving DecidableEq

/-- The anonymous temporary struct inside `ActivationData.UnmarshalJSON`. -/
structure ActivationDataTemp where
  Mid : GoStr := []
  IP : GoStr := []
  Time : Int := 0
deriving DecidableEq

/-- `strings.Split(s, "\n")`: split on every newline byte; the result
always has one more entry than the number of newlines, so it is never
empty (splitting the empty string yields one empty entry). -/
def splitNl : GoStr → List GoStr
  | [] => [[]]
  | c :: rest =>
    if c == 10 then [] :: splitNl rest
    else
      match splitNl rest with
      | h :: t => (c :: h) :: t
      | [] => [[c]]

/-! ### `encoding/json` field decoding

`json.Unmarshal` matches JSON object keys to struct fields (or their
`json:"..."` tags) case-insensitively, later duplicate keys overwriting
earlier ones.  A JSON `null` leaves a primitive field untouched and resets
a slice.  A value of the wrong type, or an integer that overflows the
64-bit field, is an error. -/

/-- ASCII lower-casing, as Go's field matching folds case. -/
def lowerB (n : Nat) : Nat := if 65 ≤ n ∧ n ≤ 90 then n + 32 else n

/-- Case-insensitive match of a JSON key against a field name. -/
def matchCI (a b : GoStr) : Bool :=
  a.map (fun c => byteOf (lowerB c.val)) == b.map (fun c => byteOf (lowerB c.val))

/-- Upper bound of Go's `int`/`int64` (2^63 - 1). -/
def maxInt64 : Int := 9223372036854775807

/-- Lower bound of Go's `int`/`int64` (-2^63). -/
def minInt64 : Int := -9223372036854775808

/-- Decode a JSON value into a Go `int`/`int64` field whose current value
is `cur`: `null` keeps the current value; an in-range integer replaces it;
anything else is an `UnmarshalTypeError` (including overflow). -/
def asInt64 (cur : Int) : Json → Except GoError Int
  | .null => .ok cur
  | .num i => if minInt64 ≤ i ∧ i ≤ maxInt64 then .ok i else .error .jsonType
  | _ => .error .jsonType

/-- Decode a JSON value into a Go `string` field. -/
def asStr (cur : GoStr) : Json → Except GoError GoStr
  | .null => .ok cur
  | .str s => .ok s
  | _ => .error .jsonType

/-- Decode a JSON value into a Go `bool` field. -/
def asBool (cur : Bool) : Json → Except GoError Bool
  | .null => .ok cur
  | .bool b => .ok b
  | _ => .error .jsonType

/-- Left-to-right decoding of an object's members into a struct value. -/
def foldMembers {α : Type} (set : α → GoStr → Json → Except GoError α) :
    α → List (GoStr × Json) → Except GoError α
  | acc, [] => .ok acc
  | acc, (k, v) :: rest =>
    match set acc k v with
    | .error e => .error e
    | .ok acc2 => foldMembers set acc2 rest

/-- Decode a JSON object's members into a struct; `null` decodes to the
zero value; any other JSON value is an `UnmarshalTypeError`.  This is
`json.Unmarshal`'s behaviour for a struct target. -/
def unmarshalStruct {α : Type} (set : α → GoStr → Json → Except GoError α)
    (zero : α) : Json → Except GoError α
  | .null => .ok zero
  | .obj ms => foldMembers set zero ms
  | _ => .error .jsonType

/-- Field decoding for the `activateResponse` struct (tags `licenseKey`,
`signature`, `result`, `message`); unknown keys are ignored. -/
def setFieldAR (acc : ActivateResponseT) (k : GoStr) (v : Json) :
    Except GoError ActivateResponseT :=
  if matchCI k (strB "licenseKey") then
    (asStr acc.LicenseKey v).map (fun x => { acc with LicenseKey := x })
  else if matchCI k (strB "signature") then
    (asStr acc.Signature v).map (fun x => { acc with Signature := x })
  else if matchCI k (strB "result") then
    (asInt64 acc.Result v).map (fun x => { acc with Result := x })
  else if matchCI k (strB "message") then
    (asStr acc.Message v).map (fun x => { acc with Message := x })
  else .ok acc

/-- `json.Unmarshal` into an `activateResponse`. -/
def unmarshalActivateResponse : Json → Except GoError ActivateResponseT :=
  unmarshalStruct setFieldAR {}

/-- Field decoding for the temporary struct of `Customer.UnmarshalJSON`. -/
def setFieldCust (acc : CustomerTemp) (k : GoStr) (v : Json) :
    Except GoError CustomerTemp :=
  if matchCI k (strB "Id") then
    (asInt64 acc.Id v).map (fun x => { acc with Id := x })
  else if matchCI k (strB "Name") then
    (asStr acc.Name v).map (fun x => { acc with Name := x })
  else if matchCI k (strB "Email") then
    (asStr acc.Email v).map (fun x => { acc with Email := x })
  else if matchCI k (strB "CompanyName") then
    (asStr acc.CompanyName v).map (fun x => { acc with CompanyName := x })
  else if matchCI k (strB "Created") then
    (asInt64 acc.Created v).map (fun x => { acc with Created := x })
  else .ok acc

/-- `Customer.UnmarshalJSON`: decode the temporary struct, then convert
the creation timestamp with `time.Unix`. -/
def unmarshalCustomer (j : Json) : Except GoError Customer :=
  (unmarshalStruct setFieldCust {} j).map (fun t =>
    { Id := t.Id, Name := t.Name, Email := t.Email,
      CompanyName := t.CompanyName, Created := timeUnix t.Created })

/-- Field decoding for the temporary struct of
`ActivationData.UnmarshalJSON`. -/
def setFieldAD (acc : ActivationDataTemp) (k : GoStr) (v : Json) :
    Except GoError ActivationDataTemp :=
  if matchCI k (strB "Mid") then
    (asStr acc.Mid v).map (fun x => { acc with Mid := x })
  else if matchCI k (strB "IP") then
    (asStr acc.IP v).map (fun x => { acc with IP := x })
  else if matchCI k (strB "Time") then
    (asInt64 acc.Time v).map (fun x => { acc with Time := x })
  else .ok acc

/-- `ActivationData.UnmarshalJSON`: decode the temporary struct, then
convert the activation timestamp with `time.Unix`. -/
def unmarshalActivationData (j : Json) : Except GoError ActivationData :=
  (unmarshalStruct setFieldAD {} j).map (fun t =>
    { Mid := t.Mid, IP := t.IP, Time := timeUnix t.Time })

/-- Field decoding for `DataObject` (no custom unmarshaler; plain
`encoding/json` struct decoding). -/
def setFieldDO (acc : DataObject) (k : GoStr) (v : Json) :
    Except GoError DataObject :=
  if matchCI k (strB "Id") then
    (asInt64 acc.Id v).map (fun x => { acc with Id := x })
  else if matchCI k (strB "Name") then
    (asStr acc.Name v).map (fun x => { acc with Name := x })
  else if matchCI k (strB "StringValue") then
    (asStr acc.StringValue v).map (fun x => { acc with StringValue := x })
  else if matchCI k (strB "IntValue") then
    (asInt64 acc.IntValue v).map (fun x => { acc with IntValue := x })
  else .ok acc

/-- `json.Unmarshal` into a `DataObject`. -/
def unmarshalDataObject : Json → Except GoError DataObject :=
  unmarshalStruct setFieldDO {}

/-- Decode a JSON value into a slice field: `null` resets the slice,
an array decodes its elements with `dec`. -/
def asSlice {α : Type} (dec : Json → Except GoError α) :
    Json → Except GoError (List α)
  | .null => .ok []
  | .arr es => es.mapM dec
  | _ => .error .jsonType

/-- Field decoding for the temporary struct of `LicenseKey.UnmarshalJSON`
(no tags: JSON keys are matched to field names case-insensitively). -/
def setFieldLK (acc : LicenseKeyTemp) (k : GoStr) (v : Json) :
    Except GoError LicenseKeyTemp :=
  if matchCI k (strB "ProductId") then
    (asInt64 acc.ProductId v).map (fun x => { acc with ProductId := x })
  else if matchCI k (strB "Id") then
    (asInt64 acc.Id v).map (fun x => { acc with Id := x })
  else if matchCI k (strB "Key") then
    (asStr acc.Key v).map (fun x => { acc with Key := x })
  else if matchCI k (strB "Created") then
    (asInt64 acc.Created v).map (fun x => { acc with Created := x })
  else if matchCI k (strB "Expires") then
    (asInt64 acc.Expires v).map (fun x => { acc with Expires := x })
  else if matchCI k (strB "Period") then
    (asInt64 acc.Period v).map (fun x => { acc with Period := x })
  else if matchCI k (strB "F1") then
    (asBool acc.F1 v).map (fun x => { acc with F1 := x })
  else if matchCI k (strB "F2") then
    (asBool acc.F2 v).map (fun x => { acc with F2 := x })
  else if matchCI k (strB "F3") then
    (asBool acc.F3 v).map (fun x => { acc with F3 := x })
  else if matchCI k (strB "F4") then
    (asBool acc.F4 v).map (fun x => { acc with F4 := x })
  else if matchCI k (strB "F5") then
    (asBool acc.F5 v).map (fun x => { acc with F5 := x })
  else if matchCI k (strB "F6") then
    (asBool acc.F6 v).map (fun x => { acc with F6 := x })
  else if matchCI k (strB "F7") then
    (asBool acc.F7 v).map (fun x => { acc with F7 := x })
  else if matchCI k (strB "F8") then
    (asBool acc.F8 v).map (fun x => { acc with F8 := x })
  else if matchCI k (strB "Notes") then
    (asStr acc.Notes v).map (fun x => { acc with Notes := x })
  else if matchCI k (strB "Block") then
    (asBool acc.Block v).map (fun x => { acc with Block := x })
  else if matchCI k (strB "GlobalId") then
    (asInt64 acc.GlobalId v).map (fun x => { acc with GlobalId := x })
  else if matchCI k (strB "Customer") then
    (unmarshalCustomer v).map (fun x => { acc with Customer := x })
  else if matchCI k (strB "ActivatedMachines") then
    (asSlice unmarshalActivationData v).map
      (fun x => { acc with ActivatedMachines := x })
  else if matchCI k (strB "TrialActivation") then
    (asBool acc.TrialActivation v).map (fun x => { acc with TrialActivation := x })
  else if matchCI k (strB "MaxNoOfMachines") then
    (asInt64 acc.MaxNoOfMachines v).map (fun x => { acc with MaxNoOfMachines := x })
  else if matchCI k (strB "AllowedMachines") then
    (asStr acc.AllowedMachines v).map (fun x => { acc with AllowedMachines := x })
  else if matchCI k (strB "DataObjects") then
    (asSlice unmarshalDataObject v).map (fun x => { acc with DataObjects := x })
  else if matchCI k (strB "SignDate") then
    (asInt64 acc.SignDate v).map (fun x => { acc with SignDate := x })
  else .ok acc

/-- The field assignments at the end of `LicenseKey.UnmarshalJSON`:
timestamps go through `time.Unix(·, 0)` and `AllowedMachines` through
`strings.Split(·, "\n")`. -/
def licenseKeyOfTemp (t : LicenseKeyTemp) : LicenseKey :=
  { ProductId := t.ProductId, Id := t.Id, Key := t.Key,
    Created := timeUnix t.Created, Expires := timeUnix t.Expires,
    Period := t.Period,
    F1 := t.F1, F2 := t.F2, F3 := t.F3, F4 := t.F4,
    F5 := t.F5, F6 := t.F6, F7 := t.F7, F8 := t.F8,
    Notes := t.Notes, Block := t.Block, GlobalId := t.GlobalId,
    Customer := t.Customer, ActivatedMachines := t.ActivatedMachines,
    TrialActivation := t.TrialActivation,
    MaxNoOfMachines := t.MaxNoOfMachines,
    AllowedMachines := splitNl t.AllowedMachines,
    DataObjects := t.DataObjects, SignDate := timeUnix t.SignDate,
    licenseKeyBytes := [], signatureBytes := [] }

/-- `LicenseKey.UnmarshalJSON` applied to an already-parsed document. -/
def unmarshalLicenseKey (j : Json) : Except GoError LicenseKey :=
  (unmarshalStruct setFieldLK {} j).map licenseKeyOfTemp

/-! ### The pipeline functions of `cryptolens.go` -/

/-- `json.Marshal` of an `activateResponse` value: four members in field
order, strings escaped (base64 text contains no byte that needs
escaping).  Marshalling this struct shape cannot fail, so no error case
exists at this level. -/
def marshalActivateResponse (r : ActivateResponseT) : GoStr :=
  123 :: serStr (strB "licenseKey") ++ 58 :: serStr r.LicenseKey ++
    44 :: serStr (strB "signature") ++ 58 :: serStr r.Signature ++
    44 :: serStr (strB "result") ++ 58 :: intDigits r.Result ++
    44 :: serStr (strB "message") ++ 58 :: serStr r.Message ++ [125]

/-- `LicenseKey.ToBytes`: base64-encode the stored raw license and
signature bytes and marshal them in the activation-response shape with
`Result = 0` and `Message = ""`.  The `error` result mirrors the Go
signature; `json.Marshal` of this struct type always succeeds. -/
def ToBytes (licenseKey : LicenseKey) : Except GoError GoStr :=
  .ok (marshalActivateResponse
    { LicenseKey := b64encode licenseKey.licenseKeyBytes,
      Signature := b64encode licenseKey.signatureBytes,
      Result := 0, Message := [] })

/-- `parseActivateResponse`: base64-decode the two string fields. -/
def parseActivateResponse (response : ActivateResponseT) :
    Except GoError (GoStr × GoStr) :=
  match b64decode response.LicenseKey with
  | .error e => .error e
  | .ok licenseKeyBytes =>
    match b64decode response.Signature with
    | .error e => .error e
    | .ok signatureBytes => .ok (licenseKeyBytes, signatureBytes)

/-- `buildLicenseKey`: unmarshal the raw license bytes into a
`LicenseKey`, then store the raw license and signature bytes in it. -/
def buildLicenseKey (licenseKeyBytes signatureBytes : GoStr) :
    Except GoError LicenseKey :=
  match jsonParse licenseKeyBytes with
  | .error e => .error e
  | .ok j =>
    match unmarshalLicenseKey j with
    | .error e => .error e
    | .ok k =>
      .ok { k with licenseKeyBytes := licenseKeyBytes,
                   signatureBytes := signatureBytes }

/-- The response handling shared by `KeyActivate` (after the HTTP layer
decoded the body into an `activateResponse`) and `KeyFromBytes`. -/
def keyFromResponse (r : ActivateResponseT) : Except GoError LicenseKey :=
  match parseActivateResponse r with
  | .error e => .error e
  | .ok (licenseKeyBytes, signatureBytes) =>
    buildLicenseKey licenseKeyBytes signatureBytes

/-- The response handling of `KeyActivate`/`KeyFromBytes` from a parsed
response document. -/
def keyFromJson (j : Json) : Except GoError LicenseKey :=
  match unmarshalActivateResponse j with
  | .error e => .error e
  | .ok r => keyFromResponse r

/-- `KeyFromBytes`. -/
def KeyFromBytes (b : GoStr) : Except GoError LicenseKey :=
  match jsonParse b with
  | .error e => .error e
  | .ok j => keyFromJson j

/-! ### Big-endian byte/integer conversions (`math/big` `SetBytes`,
`bigmod.Nat.Bytes`) -/

/-- `big.Int.SetBytes`: interpret bytes as a big-endian unsigned integer. -/
def natOfBytesBE (l : GoStr) : Nat := l.foldl (fun acc b => acc * 256 + b.val) 0

/-- The `k`-byte big-endian encoding of `n % 256^k`. -/
def bytesBEOfNat : Nat → Nat → GoStr
  | 0, _ => []
  | k + 1, n => bytesBEOfNat k (n / 256) ++ [byteOf n]

/-- `big.Int.BitLen` for a non-negative value. -/
def bitLen (n : Nat) : Nat := if n = 0 then 0 else Nat.log2 n + 1

/-- `rsa.PublicKey.Size()`: the modulus length in bytes. -/
def rsaSize (n : Nat) : Nat := (bitLen n + 7) / 8

/-- Fast modular exponentiation (the computation performed by
`bigmod.Nat.ExpShortVarTime`). -/
def powMod (b e n : Nat) : Nat :=
  if e = 0 then 1 % n
  else
    let h := powMod (b * b % n) (e / 2) n
    if e % 2 = 1 then h * (b % n) % n else h
termination_by e
decreasing_by exact Nat.div_lt_self (Nat.pos_of_ne_zero (by assumption)) (by omega)

/-! ### SHA-256 (model of `crypto/sha256`, FIPS 180-4) -/

/-- Truncate to a 32-bit word. -/
def w32 (n : Nat) : Nat := n % 4294967296

/-- Rotate a 32-bit word right by `r` bits. -/
def rotr32 (r x : Nat) : Nat := w32 (x / 2 ^ r + x % 2 ^ r * 2 ^ (32 - r))

/-- SHA-256 round constants. -/
def sha256K : List Nat :=
  [1116352408, 1899447441, 3049323471, 3921009573,
   961987163, 1508970993, 2453635748, 2870763221,
   3624381080, 310598401, 607225278, 1426881987,
   1925078388, 2162078206, 2614888103, 3248222580,
   3835390401, 4022224774, 264347078, 604807628,
   770255983, 1249150122, 1555081692, 1996064986,
   2554220882, 2821834349, 2952996808, 3210313671,
   3336571891, 3584528711, 113926993, 338241895,
   666307205, 773529912, 1294757372, 1396182291,
   1695183700, 1986661051, 2177026350, 2456956037,
   2730485921, 2820302411, 3259730800, 3345764771,
   3516065817, 3600352804, 4094571909, 275423344,
   430227734, 506948616, 659060556, 883997877,
   958139571, 1322822218, 1537002063, 1747873779,
   1955562222, 2024104815, 2227730452, 2361852424,
   2428436474, 2756734187, 3204031479, 3329325298]

/-- SHA-256 initial hash state. -/
def sha256H0 : List Nat :=
  [1779033703, 3144134277, 1013904242, 2773480762,
   1359893119, 2600822924, 528734635, 1541459225]

/-- SHA-256 padding: a `0x80` byte, zeros to 56 mod 64, then the bit
length as eight big-endian bytes. -/
def sha256pad (msg : GoStr) : GoStr :=
  msg ++ 128 :: List.replicate ((64 - (msg.length + 9) % 64) % 64) 0 ++
    bytesBEOfNat 8 (msg.length * 8)

/-- Big-endian 32-bit words of a byte sequence. -/
def wordsOf : GoStr → List Nat
  | b0 :: b1 :: b2 :: b3 :: rest =>
    (b0.val * 16777216 + b1.val * 65536 + b2.val * 256 + b3.val) :: wordsOf rest
  | _ => []

/-- Extend the 16 chunk words to the 64-entry message schedule. -/
def extendW : Nat → List Nat → List Nat
  | 0, ws => ws
  | i + 1, ws =>
    let n := ws.length
    let w15 := ws.getD (n - 15) 0
    let w2 := ws.getD (n - 2) 0
    let s0 := Nat.xor (Nat.xor (rotr32 7 w15) (rotr32 18 w15)) (w15 / 8)
    let s1 := Nat.xor (Nat.xor (rotr32 17 w2) (rotr32 19 w2)) (w2 / 1024)
    extendW i (ws ++ [w32 (ws.getD (n - 16) 0 + s0 + ws.getD (n - 7) 0 + s1)])

/-- One SHA-256 round on the working variables. -/
def sha256round (st : Nat × Nat × Nat × Nat × Nat × Nat × Nat × Nat)
    (k w : Nat) : Nat × Nat × Nat × Nat × Nat × Nat × Nat × Nat :=
  let (a, b, c, d, e, f, g, h) := st
  let s1 := Nat.xor (Nat.xor (rotr32 6 e) (rotr32 11 e)) (rotr32 25 e)
  let ch := Nat.xor (Nat.land e f) (Nat.land (Nat.xor e 4294967295) g)
  let t1 := w32 (h + s1 + ch + k + w)
  let s0 := Nat.xor (Nat.xor (rotr32 2 a) (rotr32 13 a)) (rotr32 22 a)
  let mj := Nat.xor (Nat.xor (Nat.land a b) (Nat.land a c)) (Nat.land b c)
  let t2 := w32 (s0 + mj)
  (w32 (t1 + t2), a, b, c, w32 (d + t1), e, f, g)

/-- Compress one 64-byte chunk into the hash state. -/
def sha256compress (st : List Nat) (chunk : GoStr) : List Nat :=
  match st with
  | [a, b, c, d, e, f, g, h] =>
    let ws := extendW 48 (wordsOf chunk)
    let r := (sha256K.zip ws).foldl
      (fun s kw => sha256round s kw.1 kw.2) (a, b, c, d, e, f, g, h)
    match r with
    | (a2, b2, c2, d2, e2, f2, g2, h2) =>
      [w32 (a + a2), w32 (b + b2), w32 (c + c2), w32 (d + d2),
       w32 (e + e2), w32 (f + f2), w32 (g + g2), w32 (h + h2)]
  | _ => st

/-- Compress successive 64-byte chunks. -/
def sha256chunks (st : List Nat) (l : GoStr) : List Nat :=
  if l = [] then st
  else sha256chunks (sha256compress st (l.take 64)) (l.drop 64)
termination_by l.length
decreasing_by
  simp only [List.length_drop]
  have : l.length ≠ 0 := by
    intro h
    exact (by assumption : ¬l = []) (List.eq_nil_of_length_eq_zero h)
  omega

/-- `sha256.Sum256`. -/
def sha256 (msg : GoStr) : GoStr :=
  (sha256chunks sha256H0 (sha256pad msg)).flatMap (fun w => bytesBEOfNat 4 w)

/-! ### RSA PKCS#1 v1.5 verification (model of `rsa.VerifyPKCS1v15` with
`crypto.SHA256`) -/

/-- The DER `DigestInfo` prefix for SHA-256 (`hashPrefixes[crypto.SHA256]`
in `crypto/rsa`). -/
def digestInfoSHA256 : GoStr :=
  [0x30, 0x31, 0x30, 0x0d, 0x06, 0x09, 0x60, 0x86, 0x48, 0x01,
   0x65, 0x03, 0x04, 0x02, 0x01, 0x05, 0x00, 0x04, 0x20]

/-- The byte comparisons `rsa.VerifyPKCS1v15` performs on the encoded
message `em` (of length `k`): `em[0] == 0`, `em[1] == 1`, the hash at the
end, the `DigestInfo` prefix before it, `0xff` filler over `[2, k-52)`,
and a zero separator at `k-52`. -/
def emChecks (k : Nat) (hashed em : GoStr) : Bool :=
  decide (em.take 2 = [0, 1]) &&
    decide (em.drop (k - 32) = hashed) &&
    decide ((em.drop (k - 51)).take 19 = digestInfoSHA256) &&
    ((em.drop 2).take (k - 54)).all (fun b => b == 255) &&
    (em.getD (k - 52) 0 == 0)

/-- `rsa.VerifyPKCS1v15(pub, crypto.SHA256, hashed, sig) == nil`, for the
public key with modulus `n` and exponent `e`: the digest must be 32 bytes;
the modulus must leave room for the padded encoding (`k ≥ tLen + 11 = 62`);
the signature must be exactly `k` bytes and, as an integer, below the
modulus; and `sig^e mod n`, written as `k` big-endian bytes, must pass the
byte comparisons above. -/
def verifyPKCS1v15SHA256 (n e : Nat) (hashed sig : GoStr) : Bool :=
  let k := rsaSize n
  if hashed.length ≠ 32 then false
  else if k < 62 then false
  else if sig.length ≠ k then false
  else if n ≤ natOfBytesBE sig then false
  else emChecks k hashed (bytesBEOfNat k (powMod (natOfBytesBE sig) e n))

/-! ### XML public key descriptor (model of `encoding/xml` on the
`<RSAKeyValue><Modulus>…</Modulus><Exponent>…</Exponent></RSAKeyValue>`
fragment: elements and character data; attributes, comments and
self-closing tags are outside this protocol and rejected) -/

/-- A node of the markup fragment. -/
inductive XmlNode where
  | elem (name : GoStr) (children : List XmlNode) : XmlNode
  | text (s : GoStr) : XmlNode

/-- Bytes a tag name may contain (anything up to a delimiter). -/
def isNameByte (c : Fin 256) : Bool :=
  !(c == 60 || c == 62 || c == 47 || c == 32 || c == 9 || c == 10 || c == 13)

mutual

/-- Parse one element: `<name>` children `</name>`. -/
def xmlParseElem : Nat → GoStr → Except GoError (XmlNode × GoStr)
  | 0, _ => .error .xmlMalformed
  | fuel + 1, l =>
    match l with
    | 60 :: r1 =>
      let nm := r1.takeWhile isNameByte
      if nm.isEmpty then .error .xmlMalformed
      else
        match r1.drop nm.length with
        | 62 :: r2 =>
          match xmlParseNodes fuel r2 with
          | .error e => .error e
          | .ok (children, r3) =>
            match r3 with
            | 60 :: 47 :: r4 =>
              if startsWith nm r4 then
                match r4.drop nm.length with
                | 62 :: r5 => .ok (.elem nm children, r5)
                | _ => .error .xmlMalformed
              else .error .xmlMalformed
            | _ => .error .xmlMalformed
        | _ => .error .xmlMalformed
    | _ => .error .xmlMalformed

/-- Parse element content: child elements and character data, stopping
before a closing tag (or at end of input). -/
def xmlParseNodes : Nat → GoStr → Except GoError (List XmlNode × GoStr)
  | 0, _ => .error .xmlMalformed
  | fuel + 1, l =>
    match l with
    | [] => .ok ([], [])
    | 60 :: 47 :: r => .ok ([], 60 :: 47 :: r)
    | 60 :: r =>
      match xmlParseElem fuel (60 :: r) with
      | .error e => .error e
      | .ok (node, r2) =>
        match xmlParseNodes fuel r2 with
        | .error e => .error e
        | .ok (nodes, r3) => .ok (node :: nodes, r3)
    | c :: r =>
      match xmlParseNodes fuel r with
      | .error e => .error e
      | .ok (nodes, r2) =>
        match nodes with
        | .text s :: tl => .ok (.text (c :: s) :: tl, r2)
        | _ => .ok (.text [c] :: nodes, r2)

end

/-- The `RSAKeyValue` struct local to `HasValidSignature`. -/
structure RSAKeyValue where
  Modulus : GoStr := []
  Exponent : GoStr := []
deriving DecidableEq

/-- Concatenated character data of an element's direct children (what
`encoding/xml` stores into a string field). -/
def xmlText (children : List XmlNode) : GoStr :=
  children.foldl (fun acc n =>
    match n with
    | .text s => acc ++ s
    | .elem _ _ => acc) []

/-- Collect the `Modulus`/`Exponent` fields from the root's child
elements (by element name, later occurrences overwriting earlier). -/
def rsaKeyValueOf (root : XmlNode) : RSAKeyValue :=
  match root with
  | .text _ => {}
  | .elem _ children =>
    children.foldl (fun acc n =>
      match n with
      | .elem nm cs =>
        if nm = strB "Modulus" then { acc with Modulus := xmlText cs }
        else if nm = strB "Exponent" then { acc with Exponent := xmlText cs }
        else acc
      | .text _ => acc) {}

/-- `xml.Unmarshal` of a public-key descriptor into `RSAKeyValue`. -/
def xmlUnmarshalRSAKeyValue (l : GoStr) : Except GoError RSAKeyValue :=
  match xmlParseElem (l.length + 1) (skipWs l) with
  | .error e => .error e
  | .ok (root, _) => .ok (rsaKeyValueOf root)

/-! ### `LicenseKey.HasValidSignature` -/

/-- 2^63, the first value that does not fit `int64`
(`big.Int.IsInt64` fails exactly for values of 64 bits or more, the
decoded exponent being non-negative). -/
def int64Bound : Nat := 9223372036854775808

/-- `LicenseKey.HasValidSignature`: parse the XML descriptor,
base64-decode `Modulus` and `Exponent`, reject exponents that do not fit
`int64`, hash the stored raw license bytes with SHA-256 and verify the
stored signature bytes under RSA PKCS#1 v1.5.  Every failure yields
`false`. -/
def HasValidSignature (licenseKey : LicenseKey) (publicKey : GoStr) : Bool :=
  match xmlUnmarshalRSAKeyValue publicKey with
  | .error _ => false
  | .ok k =>
    match b64decode k.Modulus with
    | .error _ => false
    | .ok modulusBytes =>
      match b64decode k.Exponent with
      | .error _ => false
      | .ok exponentBytes =>
        let modulus := natOfBytesBE modulusBytes
        let exponent := natOfBytesBE exponentBytes
        if int64Bound ≤ exponent then false
        else
          verifyPKCS1v15SHA256 modulus exponent
            (sha256 licenseKey.licenseKeyBytes) licenseKey.signatureBytes

/-! ### Base64 round trip -/

theorem decSextet_sextet : ∀ m < 64, decSextet (sextet m) = some m := by decide

theorem sextet_ne : ∀ m < 64, sextet m ≠ 10 ∧ sextet m ≠ 13 ∧ sextet m ≠ 61 := by decide

theorem b64encode_mem (l : GoStr) :
    ∀ c ∈ b64encode l, c = 61 ∨ ∃ m, m < 64 ∧ c = sextet m := by
  induction l using b64encode.induct with
  | case1 => simp [b64encode]
  | case2 a =>
    intro c hc
    simp [b64encode] at hc
    rcases hc with h | h | h
    · exact Or.inr ⟨a.val / 4, by omega, h⟩
    · exact Or.inr ⟨a.val % 4 * 16, by omega, h⟩
    · exact Or.inl h
  | case3 a b =>
    intro c hc
    simp [b64encode] at hc
    rcases hc with h | h | h | h
    · exact Or.inr ⟨a.val / 4, by omega, h⟩
    · exact Or.inr ⟨a.val % 4 * 16 + b.val / 16, by omega, h⟩
    · exact Or.inr ⟨b.val % 16 * 4, by omega, h⟩
    · exact Or.inl h
  | case4 a b c rest ih =>
    intro x hx
    simp [b64encode] at hx
    rcases hx with h | h | h | h | h
    · exact Or.inr ⟨a.val / 4, by omega, h⟩
    · exact Or.inr ⟨a.val % 4 * 16 + b.val / 16, by omega, h⟩
    · exact Or.inr ⟨b.val % 16 * 4 + c.val / 64, by omega, h⟩
    · exact Or.inr ⟨c.val % 64, by omega, h⟩
    · exact ih x h

theorem b64encode_filter (l : GoStr) :
    (b64encode l).filter (fun c => !(c == 10 || c == 13)) = b64encode l := by
  rw [List.filter_eq_self]
  intro c hc
  rcases b64encode_mem l c hc with h | ⟨m, hm, h⟩
  · subst h; decide
  · subst h
    have := sextet_ne m hm
    simp [this.1, this.2.1]

theorem byteOf_val (a : Fin 256) : byteOf a.val = a := by
  apply Fin.ext
  simp [byteOf, Nat.mod_eq_of_lt a.isLt]

theorem b64decodeQuads_encode (l : GoStr) :
    b64decodeQuads (b64encode l) = .ok l := by
  induction l using b64encode.induct with
  | case1 => rfl
  | case2 a =>
    have h1 : decSextet (sextet (a.val / 4)) = some (a.val / 4) :=
      decSextet_sextet _ (by omega)
    have h2 : decSextet (sextet (a.val % 4 * 16)) = some (a.val % 4 * 16) :=
      decSextet_sextet _ (by omega)
    have e1 : byteOf (a.val / 4 * 4 + (a.val % 4 * 16) / 16) = a := by
      apply Fin.ext; simp only [byteOf]; omega
    simp only [b64encode, b64decodeQuads, h1, h2, List.isEmpty_nil, if_true, e1]
    rfl
  | case3 a b =>
    have h1 : decSextet (sextet (a.val / 4)) = some (a.val / 4) :=
      decSextet_sextet _ (by omega)
    have h2 : decSextet (sextet (a.val % 4 * 16 + b.val / 16)) =
        some (a.val % 4 * 16 + b.val / 16) :=
      decSextet_sextet _ (by omega)
    have h3 : decSextet (sextet (b.val % 16 * 4)) = some (b.val % 16 * 4) :=
      decSextet_sextet _ (by omega)
    have h4 : (sextet (b.val % 16 * 4) == 61) = false := by
      have := (sextet_ne _ (show b.val % 16 * 4 < 64 by omega)).2.2
      simpa using this
    have e1 : byteOf (a.val / 4 * 4 + (a.val % 4 * 16 + b.val / 16) / 16) = a := by
      apply Fin.ext; simp only [byteOf]; omega
    have e2 : byteOf ((a.val % 4 * 16 + b.val / 16) % 16 * 16 + (b.val % 16 * 4) / 4) = b := by
      apply Fin.ext; simp only [byteOf]; omega
    simp only [b64encode, b64decodeQuads, h1, h2, h3, h4, Bool.false_eq_true, if_false,
      List.isEmpty_nil, if_true, e1, e2]
    rfl
  | case4 a b c rest ih =>
    have h1 : decSextet (sextet (a.val / 4)) = some (a.val / 4) :=
      decSextet_sextet _ (by omega)
    have h2 : decSextet (sextet (a.val % 4 * 16 + b.val / 16)) =
        some (a.val % 4 * 16 + b.val / 16) :=
      decSextet_sextet _ (by omega)
    have h3 : decSextet (sextet (b.val % 16 * 4 + c.val / 64)) =
        some (b.val % 16 * 4 + c.val / 64) :=
      decSextet_sextet _ (by omega)
    have h4 : decSextet (sextet (c.val % 64)) = some (c.val % 64) :=
      decSextet_sextet _ (by omega)
    have h5 : (sextet (c.val % 64) == 61) = false := by
      have := (sextet_ne _ (show c.val % 64 < 64 by omega)).2.2
      simpa using this
    have e1 : byteOf (a.val / 4 * 4 + (a.val % 4 * 16 + b.val / 16) / 16) = a := by
      apply Fin.ext; simp only [byteOf]; omega
    have e2 : byteOf ((a.val % 4 * 16 + b.val / 16) % 16 * 16 +
        (b.val % 16 * 4 + c.val / 64) / 4) = b := by
      apply Fin.ext; simp only [byteOf]; omega
    have e3 : byteOf ((b.val % 16 * 4 + c.val / 64) % 4 * 64 + c.val % 64) = c := by
      apply Fin.ext; simp only [byteOf]; omega
    simp only [b64encode, b64decodeQuads, h1, h2, h3, h4, h5, Bool.false_eq_true, if_false,
      ih, Except.map, e1, e2, e3]

theorem b64decode_encode (l : GoStr) : b64decode (b64encode l) = .ok l := by
  rw [b64decode, b64encode_filter, b64decodeQuads_encode]

/-! ### Parsing back a marshalled activation response -/

/-- Bytes that JSON-escape to themselves and terminate nothing in the
parser (base64 text and the field names are made of such bytes). -/
def plainChar (c : Fin 256) : Bool :=
  !(c == 34 || c == 92 || c < 32 || c == 60 || c == 62 || c == 38)

theorem plainChar_spec {c : Fin 256} (h : plainChar c = true) :
    (c == 34) = false ∧ (c == 92) = false ∧ ¬c < 32 ∧
      (c == 60) = false ∧ (c == 62) = false ∧ (c == 38) = false := by
  have h' : (c == 34 || c == 92 || decide (c < 32) || c == 60 || c == 62 || c == 38)
      = false := by
    simpa only [plainChar, Bool.not_eq_eq_eq_not, Bool.not_true] using h
  simp only [Bool.or_eq_false_iff] at h'
  refine ⟨h'.1.1.1.1.1, h'.1.1.1.1.2, ?_, h'.1.1.2, h'.1.2, h'.2⟩
  simpa using h'.1.1.1.2

theorem parseStrBody_quote (r : GoStr) : parseStrBody (34 :: r) = .ok ([], r) := by
  rw [parseStrBody.eq_def]; simp

theorem parseStrBody_cons {c : Fin 256} (h1 : (c == 34) = false) (h2 : (c == 92) = false)
    (h3 : ¬c < 32) (r : GoStr) :
    parseStrBody (c :: r) = (parseStrBody r).map (fun p => (c :: p.1, p.2)) := by
  rw [parseStrBody.eq_def]
  simp [h1, h2, h3]

theorem escChar_plain {c : Fin 256} (h : plainChar c = true) : escChar c = [c] := by
  obtain ⟨h1, h2, h3, h4, h5, h6⟩ := plainChar_spec h
  have h9 : (c == 10) = false := by
    cases hc : c == 10 with
    | true => exact absurd (by simp at hc; omega : c < 32) h3
    | false => rfl
  have h10 : (c == 13) = false := by
    cases hc : c == 13 with
    | true => exact absurd (by simp at hc; omega : c < 32) h3
    | false => rfl
  have h11 : (c == 9) = false := by
    cases hc : c == 9 with
    | true => exact absurd (by simp at hc; omega : c < 32) h3
    | false => rfl
  simp [escChar, h1, h2, h3, h4, h5, h6, h9, h10, h11]

theorem flatMap_escChar_plain {s : GoStr} (h : s.all plainChar = true) :
    s.flatMap escChar = s := by
  induction s with
  | nil => rfl
  | cons c cs ih =>
    simp only [List.all_cons, Bool.and_eq_true] at h
    simp [escChar_plain h.1, ih h.2]

theorem serStr_plain {s : GoStr} (h : s.all plainChar = true) :
    serStr s = 34 :: s ++ [34] := by
  simp [serStr, flatMap_escChar_plain h]

theorem parseStrBody_plain {s : GoStr} (h : s.all plainChar = true) (r : GoStr) :
    parseStrBody (s ++ 34 :: r) = .ok (s, r) := by
  induction s with
  | nil => simpa using parseStrBody_quote r
  | cons c cs ih =>
    simp only [List.all_cons, Bool.and_eq_true] at h
    obtain ⟨h1, h2, h3, _, _, _⟩ := plainChar_spec h.1
    rw [List.cons_append, parseStrBody_cons h1 h2 h3, ih h.2]
    rfl

theorem skipWs_notWs {c : Fin 256} {l : GoStr} (h : isWs c = false) :
    skipWs (c :: l) = c :: l := by
  rw [skipWs.eq_def]
  simp [h]

theorem b64encode_plain (l : GoStr) : (b64encode l).all plainChar = true := by
  rw [List.all_eq_true]
  intro c hc
  rcases b64encode_mem l c hc with h | ⟨m, hm, h⟩
  · subst h; decide
  · subst h
    have : ∀ m, m < 64 → plainChar (sextet m) = true := by decide
    exact this m hm

theorem parseValue_str (f : Nat) {s : GoStr} (h : s.all plainChar = true) (r : GoStr) :
    parseValue (f + 1) (34 :: (s ++ 34 :: r)) = .ok (.str s, r) := by
  simp only [parseValue.eq_2]
  rw [skipWs_notWs (by decide)]
  simp [parseStrBody_plain h]
  rfl

theorem parseValue_zero (f : Nat) (r : GoStr) :
    parseValue (f + 1) (48 :: 44 :: r) = .ok (.num 0, 44 :: r) := by
  simp only [parseValue.eq_2]
  rw [skipWs_notWs (by decide)]
  norm_num [startsWith, strB, parseNum, parseDigits, isDigit]
  rfl

theorem parseMembers_step (f : Nat) {k : GoStr} (hk : k.all plainChar = true)
    {X r3 : GoStr} {v : Json} (hv : parseValue f X = .ok (v, r3)) :
    parseMembers (f + 1) (34 :: (k ++ 34 :: 58 :: X)) =
      match skipWs r3 with
      | 44 :: r4 => (parseMembers f r4).map (fun p => ((k, v) :: p.1, p.2))
      | 125 :: r4 => .ok ([(k, v)], r4)
      | _ => .error .jsonSyntax := by
  simp only [parseMembers.eq_2]
  rw [skipWs_notWs (by decide)]
  simp only [show (34 :: 58 :: X : GoStr) = 34 :: (58 :: X) from rfl,
    parseStrBody_plain hk, skipWs_notWs (show isWs 58 = false by decide), hv]

theorem parseMembers_step_comma (f : Nat) {k : GoStr} (hk : k.all plainChar = true)
    {X r4 : GoStr} {v : Json} (hv : parseValue f X = .ok (v, 44 :: r4)) :
    parseMembers (f + 1) (34 :: (k ++ 34 :: 58 :: X)) =
      (parseMembers f r4).map (fun p => ((k, v) :: p.1, p.2)) := by
  rw [parseMembers_step f hk hv, skipWs_notWs (by decide)]

theorem parseMembers_step_close (f : Nat) {k : GoStr} (hk : k.all plainChar = true)
    {X r4 : GoStr} {v : Json} (hv : parseValue f X = .ok (v, 125 :: r4)) :
    parseMembers (f + 1) (34 :: (k ++ 34 :: 58 :: X)) = .ok ([(k, v)], r4) := by
  rw [parseMembers_step f hk hv, skipWs_notWs (by decide)]

theorem parseValue_objStep (f : Nat) (X : GoStr) :
    parseValue (f + 1) (123 :: (34 :: X)) =
      (parseMembers f (34 :: X)).map (fun p => (Json.obj p.1, p.2)) := by
  simp only [parseValue.eq_2]
  rfl

/-- The document shape of a marshalled activation response. -/
def activateJson (s1 s2 : GoStr) : Json :=
  .obj [(strB "licenseKey", .str s1), (strB "signature", .str s2),
        (strB "result", .num 0), (strB "message", .str [])]

theorem marshal_plain_eq {s1 s2 : GoStr}
    (h1 : s1.all plainChar = true) (h2 : s2.all plainChar = true) :
    marshalActivateResponse ⟨s1, s2, 0, []⟩ =
      123 :: (34 :: (strB "licenseKey" ++ 34 :: 58 :: (34 :: (s1 ++ 34 :: 44 ::
        (34 :: (strB "signature" ++ 34 :: 58 :: (34 :: (s2 ++ 34 :: 44 ::
        (34 :: (strB "result" ++ 34 :: 58 :: (48 :: 44 ::
        (34 :: (strB "message" ++ 34 :: 58 ::
          (34 :: (([] : GoStr) ++ 34 :: 125 :: []))))))))))))))) := by
  simp [marshalActivateResponse, serStr_plain h1, serStr_plain h2,
    serStr_plain (show (strB "licenseKey").all plainChar = true by decide),
    serStr_plain (show (strB "signature").all plainChar = true by decide),
    serStr_plain (show (strB "result").all plainChar = true by decide),
    serStr_plain (show (strB "message").all plainChar = true by decide),
    serStr_plain (show ([] : GoStr).all plainChar = true by rfl),
    show intDigits 0 = [48] by decide]

theorem parseValue_marshal (f : Nat) {s1 s2 : GoStr}
    (h1 : s1.all plainChar = true) (h2 : s2.all plainChar = true) :
    parseValue (f + 6) (marshalActivateResponse ⟨s1, s2, 0, []⟩) =
      .ok (activateJson s1 s2, []) := by
  rw [marshal_plain_eq h1 h2]
  rw [show f + 6 = (f + 5) + 1 from rfl, parseValue_objStep]
  have hv4 : parseValue (f + 1) (34 :: (([] : GoStr) ++ 34 :: 125 :: [])) =
      .ok (.str [], 125 :: []) := parseValue_str f (by rfl) _
  have hm4 : parseMembers ((f + 1) + 1)
      (34 :: (strB "message" ++ 34 :: 58 :: (34 :: (([] : GoStr) ++ 34 :: 125 :: [])))) =
      .ok ([(strB "message", .str [])], []) :=
    parseMembers_step_close (f + 1) (by decide) hv4
  have hv3 : parseValue ((f + 1) + 1)
      (48 :: 44 :: (34 :: (strB "message" ++ 34 :: 58 ::
        (34 :: (([] : GoStr) ++ 34 :: 125 :: []))))) =
      .ok (.num 0, 44 :: (34 :: (strB "message" ++ 34 :: 58 ::
        (34 :: (([] : GoStr) ++ 34 :: 125 :: []))))) := parseValue_zero (f + 1) _
  have hm3 : parseMembers (((f + 1) + 1) + 1)
      (34 :: (strB "result" ++ 34 :: 58 :: (48 :: 44 ::
        (34 :: (strB "message" ++ 34 :: 58 ::
          (34 :: (([] : GoStr) ++ 34 :: 125 :: []))))))) =
      .ok ([(strB "result", .num 0), (strB "message", .str [])], []) := by
    rw [parseMembers_step_comma ((f + 1) + 1) (by decide) hv3, hm4]
    rfl
  have hv2 : parseValue (((f + 1) + 1) + 1)
      (34 :: (s2 ++ 34 :: 44 :: (34 :: (strB "result" ++ 34 :: 58 :: (48 :: 44 ::
        (34 :: (strB "message" ++ 34 :: 58 ::
          (34 :: (([] : GoStr) ++ 34 :: 125 :: []))))))))) =
      .ok (.str s2, 44 :: (34 :: (strB "result" ++ 34 :: 58 :: (48 :: 44 ::
        (34 :: (strB "message" ++ 34 :: 58 ::
          (34 :: (([] : GoStr) ++ 34 :: 125 :: [])))))))) :=
    parseValue_str ((f + 1) + 1) h2 _
  have hm2 : parseMembers ((((f + 1) + 1) + 1) + 1)
      (34 :: (strB "signature" ++ 34 :: 58 :: (34 :: (s2 ++ 34 :: 44 ::
        (34 :: (strB "result" ++ 34 :: 58 :: (48 :: 44 ::
        (34 :: (strB "message" ++ 34 :: 58 ::
          (34 :: (([] : GoStr) ++ 34 :: 125 :: []))))))))))) =
      .ok ([(strB "signature", .str s2), (strB "result", .num 0),
            (strB "message", .str [])], []) := by
    rw [parseMembers_step_comma (((f + 1) + 1) + 1) (by decide) hv2, hm3]
    rfl
  have hv1 : parseValue ((((f + 1) + 1) + 1) + 1)
      (34 :: (s1 ++ 34 :: 44 :: (34 :: (strB "signature" ++ 34 :: 58 ::
        (34 :: (s2 ++ 34 :: 44 :: (34 :: (strB "result" ++ 34 :: 58 :: (48 :: 44 ::
        (34 :: (strB "message" ++ 34 :: 58 ::
          (34 :: (([] : GoStr) ++ 34 :: 125 :: []))))))))))))) =
      .ok (.str s1, 44 :: (34 :: (strB "signature" ++ 34 :: 58 ::
        (34 :: (s2 ++ 34 :: 44 :: (34 :: (strB "result" ++ 34 :: 58 :: (48 :: 44 ::
        (34 :: (strB "message" ++ 34 :: 58 ::
          (34 :: (([] : GoStr) ++ 34 :: 125 :: [])))))))))))) :=
    parseValue_str (((f + 1) + 1) + 1) h1 _
  have hm1 : parseMembers (f + 5)
      (34 :: (strB "licenseKey" ++ 34 :: 58 :: (34 :: (s1 ++ 34 :: 44 ::
        (34 :: (strB "signature" ++ 34 :: 58 :: (34 :: (s2 ++ 34 :: 44 ::
        (34 :: (strB "result" ++ 34 :: 58 :: (48 :: 44 ::
        (34 :: (strB "message" ++ 34 :: 58 ::
          (34 :: (([] : GoStr) ++ 34 :: 125 :: []))))))))))))))) =
      .ok ([(strB "licenseKey", .str s1), (strB "signature", .str s2),
            (strB "result", .num 0), (strB "message", .str [])], []) := by
    rw [show f + 5 = ((((f + 1) + 1) + 1) + 1) + 1 from rfl,
      parseMembers_step_comma ((((f + 1) + 1) + 1) + 1) (by decide) hv1, hm2]
    rfl
  rw [hm1]
  rfl

theorem jsonParse_marshal {s1 s2 : GoStr}
    (h1 : s1.all plainChar = true) (h2 : s2.all plainChar = true) :
    jsonParse (marshalActivateResponse ⟨s1, s2, 0, []⟩) = .ok (activateJson s1 s2) := by
  obtain ⟨f, hf⟩ :
      ∃ f, (marshalActivateResponse ⟨s1, s2, 0, []⟩).length + 1 = f + 6 := by
    refine ⟨(marshalActivateResponse ⟨s1, s2, 0, []⟩).length - 5, ?_⟩
    have : 5 ≤ (marshalActivateResponse ⟨s1, s2, 0, []⟩).length := by
      rw [marshal_plain_eq h1 h2]
      have e1 : (strB "licenseKey").length = 10 := by decide
      simp [e1]
      omega
    omega
  rw [jsonParse, hf, parseValue_marshal f h1 h2]
  rfl

theorem unmarshalAR_activateJson (s1 s2 : GoStr) :
    unmarshalActivateResponse (activateJson s1 s2) =
      .ok { LicenseKey := s1, Signature := s2, Result := 0, Message := [] } := by
  rfl

theorem buildLicenseKey_bytes {b s : GoStr} {lk : LicenseKey}
    (h : buildLicenseKey b s = .ok lk) :
    lk.licenseKeyBytes = b ∧ lk.signatureBytes = s := by
  unfold buildLicenseKey at h
  split at h
  · exact absurd h (by simp)
  · split at h
    · exact absurd h (by simp)
    · simp only [Except.ok.injEq] at h
      rw [← h]
      exact ⟨rfl, rfl⟩

/-- C1: for every raw license/signature byte pair carried by a
`LicenseKey` — every `LicenseKey` carries the pair that
`buildLicenseKey` stored in it, its byte fields being unexported —
deserializing the blob produced by serialization succeeds and yields a
`LicenseKey` whose stored `licenseKeyBytes` and `signatureBytes` are the
carried pair, byte-for-byte. -/
theorem c1_tobytes_keyFromBytes_roundtrip {b s : GoStr} {lk : LicenseKey}
    (hcarried : buildLicenseKey b s = .ok lk) {blob : GoStr}
    (hblob : ToBytes lk = .ok blob) :
    KeyFromBytes blob = .ok lk ∧
      lk.licenseKeyBytes = b ∧ lk.signatureBytes = s := by
  obtain ⟨hb, hs⟩ := buildLicenseKey_bytes hcarried
  have hblob' : blob = marshalActivateResponse
      ⟨b64encode b, b64encode s, 0, []⟩ := by
    rw [ToBytes, hb, hs] at hblob
    simpa using hblob.symm
  subst hblob'
  have hmain : KeyFromBytes
      (marshalActivateResponse ⟨b64encode b, b64encode s, 0, []⟩) = .ok lk := by
    rw [KeyFromBytes, jsonParse_marshal (b64encode_plain b) (b64encode_plain s)]
    show keyFromJson (activateJson (b64encode b) (b64encode s)) = .ok lk
    rw [keyFromJson, unmarshalAR_activateJson]
    show keyFromResponse ⟨b64encode b, b64encode s, 0, []⟩ = .ok lk
    rw [keyFromResponse, parseActivateResponse]
    simp only [b64decode_encode b, b64decode_encode s]
    exact hcarried
  exact ⟨hmain, hb, hs⟩

deriving instance DecidableEq for Except

/-- The `LicenseKey` built from the raw license bytes `{}` (a license
payload with every field at its zero value) and an empty signature. -/
def c1wLk : LicenseKey := { AllowedMachines := [[]], licenseKeyBytes := [123, 125] }

/-- Witness for C1 at the concrete pair `("\x7b\x7d", "")`. -/
theorem c1_witness :
    buildLicenseKey [123, 125] [] = .ok c1wLk ∧
      ToBytes c1wLk = .ok (marshalActivateResponse ⟨strB "e30=", [], 0, []⟩) ∧
      (KeyFromBytes (marshalActivateResponse ⟨strB "e30=", [], 0, []⟩) = .ok c1wLk ∧
        c1wLk.licenseKeyBytes = [123, 125] ∧ c1wLk.signatureBytes = []) :=
  ⟨by decide, by decide,
    c1_tobytes_keyFromBytes_roundtrip (by decide) (by decide)⟩

/-- C6: the blob `ToBytes` produces is a JSON document shaped exactly
like the server's activation response: base64 of the raw license bytes
under `licenseKey`, base64 of the raw signature bytes under `signature`,
a `result` field equal to `0` and a `message` field equal to the empty
string. -/
theorem c6_tobytes_shape (lk : LicenseKey) :
    ∃ blob, ToBytes lk = .ok blob ∧
      jsonParse blob = .ok (Json.obj
        [(strB "licenseKey", .str (b64encode lk.licenseKeyBytes)),
         (strB "signature", .str (b64encode lk.signatureBytes)),
         (strB "result", .num 0),
         (strB "message", .str (strB ""))]) :=
  ⟨_, rfl,
    jsonParse_marshal (b64encode_plain lk.licenseKeyBytes)
      (b64encode_plain lk.signatureBytes)⟩

/-- C10: `ToBytes` never fails: for every `LicenseKey`, including the
zero value with empty raw byte fields, it returns a parseable
(well-formed) blob and a nil error. -/
theorem c10_tobytes_total (lk : LicenseKey) :
    ∃ blob, ToBytes lk = .ok blob ∧ ∃ j, jsonParse blob = .ok j :=
  ⟨_, rfl, _,
    jsonParse_marshal (b64encode_plain lk.licenseKeyBytes)
      (b64encode_plain lk.signatureBytes)⟩

/-! ### Field-tracking lemmas for `json.Unmarshal` struct decoding -/

theorem map_ok_proj {α β : Type} {X : Except GoError β} {g : β → α} {a : α}
    (h : X.map g = .ok a) : ∃ x, X = .ok x ∧ a = g x := by
  cases X with
  | error e => exact absurd h (by simp [Except.map])
  | ok x => exact ⟨x, rfl, by simpa [Except.map] using h.symm⟩

/-- The lower-cased bytes compared by Go's field matching. -/
def lowerStr (s : GoStr) : GoStr := s.map (fun c => byteOf (lowerB c.val))

theorem matchCI_eq (k n : GoStr) : matchCI k n = (lowerStr k == lowerStr n) := rfl

theorem matchCI_excl {k n1 n2 : GoStr} (h : matchCI k n1 = true)
    (hne : matchCI n1 n2 = false) : matchCI k n2 = false := by
  rw [matchCI_eq] at h hne ⊢
  rw [eq_of_beq h]
  exact hne

/-- The value a run of duplicate-tolerant decoding leaves in one field:
the last matching member interpreted by `f`, starting from `dflt`. -/
def lastFieldCI {β : Type} (f : Json → β → β) (name : GoStr)
    (ms : List (GoStr × Json)) (dflt : β) : β :=
  ms.foldl (fun acc kv => if matchCI kv.1 name then f kv.2 acc else acc) dflt

/-- How a JSON value updates a Go string field (`null` keeps the current
value; a type error never reaches this point on a successful decode). -/
def jStr : Json → GoStr → GoStr
  | .str s, _ => s
  | _, cur => cur

/-- How a JSON value updates a Go int/int64 field. -/
def jInt : Json → Int → Int
  | .num i, _ => i
  | _, cur => cur

theorem foldMembers_field {α β : Type} (set : α → GoStr → Json → Except GoError α)
    (proj : α → β) (name : GoStr) (f : Json → β → β)
    (hset : ∀ acc k v a, set acc k v = .ok a →
      proj a = if matchCI k name then f v (proj acc) else proj acc) :
    ∀ (ms : List (GoStr × Json)) (acc : α) (r : α),
      foldMembers set acc ms = .ok r →
        proj r = lastFieldCI f name ms (proj acc) := by
  intro ms
  induction ms with
  | nil =>
    intro acc r h
    simp only [foldMembers, Except.ok.injEq] at h
    rw [← h]
    rfl
  | cons kv tl ih =>
    intro acc r h
    rw [foldMembers] at h
    cases hs : set acc kv.1 kv.2 with
    | error e => rw [hs] at h; exact absurd h (by simp)
    | ok a =>
      rw [hs] at h
      have := ih a r h
      rw [this]
      simp only [lastFieldCI, List.foldl_cons]
      rw [hset acc kv.1 kv.2 a hs]

theorem asInt64_ok {cur : Int} {v : Json} {x : Int}
    (h : asInt64 cur v = .ok x) : x = jInt v cur := by
  cases v with
  | null => simp only [asInt64, Except.ok.injEq] at h; exact h.symm
  | num i =>
    simp only [asInt64] at h
    split_ifs at h with hr
    all_goals simp only [Except.ok.injEq] at h
    exact h.symm
  | bool b => exact absurd h (by simp [asInt64])
  | str s => exact absurd h (by simp [asInt64])
  | arr es => exact absurd h (by simp [asInt64])
  | obj ms => exact absurd h (by simp [asInt64])

theorem asStr_ok {cur : GoStr} {v : Json} {x : GoStr}
    (h : asStr cur v = .ok x) : x = jStr v cur := by
  cases v with
  | null => simp only [asStr, Except.ok.injEq] at h; exact h.symm
  | str s => simp only [asStr, Except.ok.injEq] at h; exact h.symm
  | num i => exact absurd h (by simp [asStr])
  | bool b => exact absurd h (by simp [asStr])
  | arr es => exact absurd h (by simp [asStr])
  | obj ms => exact absurd h (by simp [asStr])

theorem setFieldLK_char (acc : LicenseKeyTemp) (k : GoStr) (v : Json) (a : LicenseKeyTemp)
    (h : setFieldLK acc k v = .ok a) :
    a.Created = (if matchCI k (strB "Created") then jInt v acc.Created else acc.Created) ∧
      a.Expires = (if matchCI k (strB "Expires") then jInt v acc.Expires else acc.Expires) ∧
      a.SignDate = (if matchCI k (strB "SignDate") then jInt v acc.SignDate else acc.SignDate) ∧
      a.AllowedMachines = (if matchCI k (strB "AllowedMachines") then jStr v acc.AllowedMachines else acc.AllowedMachines) := by
  unfold setFieldLK at h
  by_cases hc1 : matchCI k (strB "ProductId") = true
  · rw [if_pos hc1] at h
    obtain ⟨x, hx, rfl⟩ := map_ok_proj h
    exact ⟨(by have hnf : matchCI k (strB "Created") = false := matchCI_excl hc1 (by decide); rw [if_neg (by simp [hnf])]), (by have hnf : matchCI k (strB "Expires") = false := matchCI_excl hc1 (by decide); rw [if_neg (by simp [hnf])]), (by have hnf : matchCI k (strB "SignDate") = false := matchCI_excl hc1 (by decide); rw [if_neg (by simp [hnf])]), (by have hnf : matchCI k (strB "AllowedMachines") = false := matchCI_excl hc1 (by decide); rw [if_neg (by simp [hnf])])⟩
  · rw [if_neg hc1] at h
    by_cases hc2 : matchCI k (strB "Id") = true
    · rw [if_pos hc2] at h
      obtain ⟨x, hx, rfl⟩ := map_ok_proj h
      exact ⟨(by have hnf : matchCI k (strB "Created") = false := matchCI_excl hc2 (by decide); rw [if_neg (by simp [hnf])]), (by have hnf : matchCI k (strB "Expires") = false := matchCI_excl hc2 (by decide); rw [if_neg (by simp [hnf])]), (by have hnf : matchCI k (strB "SignDate") = false := matchCI_excl hc2 (by decide); rw [if_neg (by simp [hnf])]), (by have hnf : matchCI k (strB "AllowedMachines") = false := matchCI_excl hc2 (by decide); rw [if_neg (by simp [hnf])])⟩
    · rw [if_neg hc2] at h
      by_cases hc3 : matchCI k (strB "Key") = true
      · rw [if_pos hc3] at h
        obtain ⟨x, hx, rfl⟩ := map_ok_proj h
        exact ⟨(by have hnf : matchCI k (strB "Created") = false := matchCI_excl hc3 (by decide); rw [if_neg (by simp [hnf])]), (by have hnf : matchCI k (strB "Expires") = false := matchCI_excl hc3 (by decide); rw [if_neg (by simp [hnf])]), (by have hnf : matchCI k (strB "SignDate") = false := matchCI_excl hc3 (by decide); rw [if_neg (by simp [hnf])]), (by have hnf : matchCI k (strB "AllowedMachines") = false := matchCI_excl hc3 (by decide); rw [if_neg (by simp [hnf])])⟩
      · rw [if_neg hc3] at h
        by_cases hc4 : matchCI k (strB "Created") = true
        · rw [if_pos hc4] at h
          obtain ⟨x, hx, rfl⟩ := map_ok_proj h
          exact ⟨(by rw [if_pos hc4]; exact asInt64_ok hx), (by have hnf : matchCI k (strB "Expires") = false := matchCI_excl hc4 (by decide); rw [if_neg (by simp [hnf])]), (by have hnf : matchCI k (strB "SignDate") = false := matchCI_excl hc4 (by decide); rw [if_neg (by simp [hnf])]), (by have hnf : matchCI k (strB "AllowedMachines") = false := matchCI_excl hc4 (by decide); rw [if_neg (by simp [hnf])])⟩
        · rw [if_neg hc4] at h
          by_cases hc5 : matchCI k (strB "Expires") = true
          · rw [if_pos hc5] at h
            obtain ⟨x, hx, rfl⟩ := map_ok_proj h
            exact ⟨(by have hnf : matchCI k (strB "Created") = false := matchCI_excl hc5 (by decide); rw [if_neg (by simp [hnf])]), (by rw [if_pos hc5]; exact asInt64_ok hx), (by have hnf : matchCI k (strB "SignDate") = false := matchCI_excl hc5 (by decide); rw [if_neg (by simp [hnf])]), (by have hnf : matchCI k (strB "AllowedMachines") = false := matchCI_excl hc5 (by decide); rw [if_neg (by simp [hnf])])⟩
          · rw [if_neg hc5] at h
            by_cases hc6 : matchCI k (strB "Period") = true
            · rw [if_pos hc6] at h
              obtain ⟨x, hx, rfl⟩ := map_ok_proj h
              exact ⟨(by have hnf : matchCI k (strB "Created") = false := matchCI_excl hc6 (by decide); rw [if_neg (by simp [hnf])]), (by have hnf : matchCI k (strB "Expires") = false := matchCI_excl hc6 (by decide); rw [if_neg (by simp [hnf])]), (by have hnf : matchCI k (strB "SignDate") = false := matchCI_excl hc6 (by decide); rw [if_neg (by simp [hnf])]), (by have hnf : matchCI k (strB "AllowedMachines") = false := matchCI_excl hc6 (by decide); rw [if_neg (by simp [hnf])])⟩
            · rw [if_neg hc6] at h
              by_cases hc7 : matchCI k (strB "F1") = true
              · rw [if_pos hc7] at h
                obtain ⟨x, hx, rfl⟩ := map_ok_proj h
                exact ⟨(by have hnf : matchCI k (strB "Created") = false := matchCI_excl hc7 (by decide); rw [if_neg (by simp [hnf])]), (by have hnf : matchCI k (strB "Expires") = false := matchCI_excl hc7 (by decide); rw [if_neg (by simp [hnf])]), (by have hnf : matchCI k (strB "SignDate") = false := matchCI_excl hc7 (by decide); rw [if_neg (by simp [hnf])]), (by have hnf : matchCI k (strB "AllowedMachines") = false := matchCI_excl hc7 (by decide); rw [if_neg (by simp [hnf])])⟩
              · rw [if_neg hc7] at h
                by_cases hc8 : matchCI k (strB "F2") = true
                · rw [if_pos hc8] at h
                  obtain ⟨x, hx, rfl⟩ := map_ok_proj h
                  exact ⟨(by have hnf : matchCI k (strB "Created") = false := matchCI_excl hc8 (by decide); rw [if_neg (by simp [hnf])]), (by have hnf : matchCI k (strB "Expires") = false := matchCI_excl hc8 (by decide); rw [if_neg (by simp [hnf])]), (by have hnf : matchCI k (strB "SignDate") = false := matchCI_excl hc8 (by decide); rw [if_neg (by simp [hnf])]), (by have hnf : matchCI k (strB "AllowedMachines") = false := matchCI_excl hc8 (by decide); rw [if_neg (by simp [hnf])])⟩
                · rw [if_neg hc8] at h
                  by_cases hc9 : matchCI k (strB "F3") = true
                  · rw [if_pos hc9] at h
                    obtain ⟨x, hx, rfl⟩ := map_ok_proj h
                    exact ⟨(by have hnf : matchCI k (strB "Created") = false := matchCI_excl hc9 (by decide); rw [if_neg (by simp [hnf])]), (by have hnf : matchCI k (strB "Expires") = false := matchCI_excl hc9 (by decide); rw [if_neg (by simp [hnf])]), (by have hnf : matchCI k (strB "SignDate") = false := matchCI_excl hc9 (by decide); rw [if_neg (by simp [hnf])]), (by have hnf : matchCI k (strB "AllowedMachines") = false := matchCI_excl hc9 (by decide); rw [if_neg (by simp [hnf])])⟩
                  · rw [if_neg hc9] at h
                    by_cases hc10 : matchCI k (strB "F4") = true
                    · rw [if_pos hc10] at h
                      obtain ⟨x, hx, rfl⟩ := map_ok_proj h
                      exact ⟨(by have hnf : matchCI k (strB "Created") = false := matchCI_excl hc10 (by decide); rw [if_neg (by simp [hnf])]), (by have hnf : matchCI k (strB "Expires") = false := matchCI_excl hc10 (by decide); rw [if_neg (by simp [hnf])]), (by have hnf : matchCI k (strB "SignDate") = false := matchCI_excl hc10 (by decide); rw [if_neg (by simp [hnf])]), (by have hnf : matchCI k (strB "AllowedMachines") = false := matchCI_excl hc10 (by decide); rw [if_neg (by simp [hnf])])⟩
                    · rw [if_neg hc10] at h
                      by_cases hc11 : matchCI k (strB "F5") = true
                      · rw [if_pos hc11] at h
                        obtain ⟨x, hx, rfl⟩ := map_ok_proj h
                        exact ⟨(by have hnf : matchCI k (strB "Created") = false := matchCI_excl hc11 (by decide); rw [if_neg (by simp [hnf])]), (by have hnf : matchCI k (strB "Expires") = false := matchCI_excl hc11 (by decide); rw [if_neg (by simp [hnf])]), (by have hnf : matchCI k (strB "SignDate") = false := matchCI_excl hc11 (by decide); rw [if_neg (by simp [hnf])]), (by have hnf : matchCI k (strB "AllowedMachines") = false := matchCI_excl hc11 (by decide); rw [if_neg (by simp [hnf])])⟩
                      · rw [if_neg hc11] at h
                        by_cases hc12 : matchCI k (strB "F6") = true
                        · rw [if_pos hc12] at h
                          obtain ⟨x, hx, rfl⟩ := map_ok_proj h
                          exact ⟨(by have hnf : matchCI k (strB "Created") = false := matchCI_excl hc12 (by decide); rw [if_neg (by simp [hnf])]), (by have hnf : matchCI k (strB "Expires") = false := matchCI_excl hc12 (by decide); rw [if_neg (by simp [hnf])]), (by have hnf : matchCI k (strB "SignDate") = false := matchCI_excl hc12 (by decide); rw [if_neg (by simp [hnf])]), (by have hnf : matchCI k (strB "AllowedMachines") = false := matchCI_excl hc12 (by decide); rw [if_neg (by simp [hnf])])⟩
                        · rw [if_neg hc12] at h
                          by_cases hc13 : matchCI k (strB "F7") = true
                          · rw [if_pos hc13] at h
                            obtain ⟨x, hx, rfl⟩ := map_ok_proj h
                            exact ⟨(by have hnf : matchCI k (strB "Created") = false := matchCI_excl hc13 (by decide); rw [if_neg (by simp [hnf])]), (by have hnf : matchCI k (strB "Expires") = false := matchCI_excl hc13 (by decide); rw [if_neg (by simp [hnf])]), (by have hnf : matchCI k (strB "SignDate") = false := matchCI_excl hc13 (by decide); rw [if_neg (by simp [hnf])]), (by have hnf : matchCI k (strB "AllowedMachines") = false := matchCI_excl hc13 (by decide); rw [if_neg (by simp [hnf])])⟩
                          · rw [if_neg hc13] at h
                            by_cases hc14 : matchCI k (strB "F8") = true
                            · rw [if_pos hc14] at h
                              obtain ⟨x, hx, rfl⟩ := map_ok_proj h
                              exact ⟨(by have hnf : matchCI k (strB "Created") = false := matchCI_excl hc14 (by decide); rw [if_neg (by simp [hnf])]), (by have hnf : matchCI k (strB "Expires") = false := matchCI_excl hc14 (by decide); rw [if_neg (by simp [hnf])]), (by have hnf : matchCI k (strB "SignDate") = false := matchCI_excl hc14 (by decide); rw [if_neg (by simp [hnf])]), (by have hnf : matchCI k (strB "AllowedMachines") = false := matchCI_excl hc14 (by decide); rw [if_neg (by simp [hnf])])⟩
                            · rw [if_neg hc14] at h
                              by_cases hc15 : matchCI k (strB "Notes") = true
                              · rw [if_pos hc15] at h
                                obtain ⟨x, hx, rfl⟩ := map_ok_proj h
                                exact ⟨(by have hnf : matchCI k (strB "Created") = false := matchCI_excl hc15 (by decide); rw [if_neg (by simp [hnf])]), (by have hnf : matchCI k (strB "Expires") = false := matchCI_excl hc15 (by decide); rw [if_neg (by simp [hnf])]), (by have hnf : matchCI k (strB "SignDate") = false := matchCI_excl hc15 (by decide); rw [if_neg (by simp [hnf])]), (by have hnf : matchCI k (strB "AllowedMachines") = false := matchCI_excl hc15 (by decide); rw [if_neg (by simp [hnf])])⟩
                              · rw [if_neg hc15] at h
                                by_cases hc16 : matchCI k (strB "Block") = true
                                · rw [if_pos hc16] at h
                                  obtain ⟨x, hx, rfl⟩ := map_ok_proj h
                                  exact ⟨(by have hnf : matchCI k (strB "Created") = false := matchCI_excl hc16 (by decide); rw [if_neg (by simp [hnf])]), (by have hnf : matchCI k (strB "Expires") = false := matchCI_excl hc16 (by decide); rw [if_neg (by simp [hnf])]), (by have hnf : matchCI k (strB "SignDate") = false := matchCI_excl hc16 (by decide); rw [if_neg (by simp [hnf])]), (by have hnf : matchCI k (strB "AllowedMachines") = false := matchCI_excl hc16 (by decide); rw [if_neg (by simp [hnf])])⟩
                                · rw [if_neg hc16] at h
                                  by_cases hc17 : matchCI k (strB "GlobalId") = true
                                  · rw [if_pos hc17] at h
                                    obtain ⟨x, hx, rfl⟩ := map_ok_proj h
                                    exact ⟨(by have hnf : matchCI k (strB "Created") = false := matchCI_excl hc17 (by decide); rw [if_neg (by simp [hnf])]), (by have hnf : matchCI k (strB "Expires") = false := matchCI_excl hc17 (by decide); rw [if_neg (by simp [hnf])]), (by have hnf : matchCI k (strB "SignDate") = false := matchCI_excl hc17 (by decide); rw [if_neg (by simp [hnf])]), (by have hnf : matchCI k (strB "AllowedMachines") = false := matchCI_excl hc17 (by decide); rw [if_neg (by simp [hnf])])⟩
                                  · rw [if_neg hc17] at h
                                    by_cases hc18 : matchCI k (strB "Customer") = true
                                    · rw [if_pos hc18] at h
                                      obtain ⟨x, hx, rfl⟩ := map_ok_proj h
                                      exact ⟨(by have hnf : matchCI k (strB "Created") = false := matchCI_excl hc18 (by decide); rw [if_neg (by simp [hnf])]), (by have hnf : matchCI k (strB "Expires") = false := matchCI_excl hc18 (by decide); rw [if_neg (by simp [hnf])]), (by have hnf : matchCI k (strB "SignDate") = false := matchCI_excl hc18 (by decide); rw [if_neg (by simp [hnf])]), (by have hnf : matchCI k (strB "AllowedMachines") = false := matchCI_excl hc18 (by decide); rw [if_neg (by simp [hnf])])⟩
                                    · rw [if_neg hc18] at h
                                      by_cases hc19 : matchCI k (strB "ActivatedMachines") = true
                                      · rw [if_pos hc19] at h
                                        obtain ⟨x, hx, rfl⟩ := map_ok_proj h
                                        exact ⟨(by have hnf : matchCI k (strB "Created") = false := matchCI_excl hc19 (by decide); rw [if_neg (by simp [hnf])]), (by have hnf : matchCI k (strB "Expires") = false := matchCI_excl hc19 (by decide); rw [if_neg (by simp [hnf])]), (by have hnf : matchCI k (strB "SignDate") = false := matchCI_excl hc19 (by decide); rw [if_neg (by simp [hnf])]), (by have hnf : matchCI k (strB "AllowedMachines") = false := matchCI_excl hc19 (by decide); rw [if_neg (by simp [hnf])])⟩
                                      · rw [if_neg hc19] at h
                                        by_cases hc20 : matchCI k (strB "TrialActivation") = true
                                        · rw [if_pos hc20] at h
                                          obtain ⟨x, hx, rfl⟩ := map_ok_proj h
                                          exact ⟨(by have hnf : matchCI k (strB "Created") = false := matchCI_excl hc20 (by decide); rw [if_neg (by simp [hnf])]), (by have hnf : matchCI k (strB "Expires") = false := matchCI_excl hc20 (by decide); rw [if_neg (by simp [hnf])]), (by have hnf : matchCI k (strB "SignDate") = false := matchCI_excl hc20 (by decide); rw [if_neg (by simp [hnf])]), (by have hnf : matchCI k (strB "AllowedMachines") = false := matchCI_excl hc20 (by decide); rw [if_neg (by simp [hnf])])⟩
                                        · rw [if_neg hc20] at h
                                          by_cases hc21 : matchCI k (strB "MaxNoOfMachines") = true
                                          · rw [if_pos hc21] at h
                                            obtain ⟨x, hx, rfl⟩ := map_ok_proj h
                                            exact ⟨(by have hnf : matchCI k (strB "Created") = false := matchCI_excl hc21 (by decide); rw [if_neg (by simp [hnf])]), (by have hnf : matchCI k (strB "Expires") = false := matchCI_excl hc21 (by decide); rw [if_neg (by simp [hnf])]), (by have hnf : matchCI k (strB "SignDate") = false := matchCI_excl hc21 (by decide); rw [if_neg (by simp [hnf])]), (by have hnf : matchCI k (strB "AllowedMachines") = false := matchCI_excl hc21 (by decide); rw [if_neg (by simp [hnf])])⟩
                                          · rw [if_neg hc21] at h
                                            by_cases hc22 : matchCI k (strB "AllowedMachines") = true
                                            · rw [if_pos hc22] at h
                                              obtain ⟨x, hx, rfl⟩ := map_ok_proj h
                                              exact ⟨(by have hnf : matchCI k (strB "Created") = false := matchCI_excl hc22 (by decide); rw [if_neg (by simp [hnf])]), (by have hnf : matchCI k (strB "Expires") = false := matchCI_excl hc22 (by decide); rw [if_neg (by simp [hnf])]), (by have hnf : matchCI k (strB "SignDate") = false := matchCI_excl hc22 (by decide); rw [if_neg (by simp [hnf])]), (by rw [if_pos hc22]; exact asStr_ok hx)⟩
                                            · rw [if_neg hc22] at h
                                              by_cases hc23 : matchCI k (strB "DataObjects") = true
                                              · rw [if_pos hc23] at h
                                                obtain ⟨x, hx, rfl⟩ := map_ok_proj h
                                                exact ⟨(by have hnf : matchCI k (strB "Created") = false := matchCI_excl hc23 (by decide); rw [if_neg (by simp [hnf])]), (by have hnf : matchCI k (strB "Expires") = false := matchCI_excl hc23 (by decide); rw [if_neg (by simp [hnf])]), (by have hnf : matchCI k (strB "SignDate") = false := matchCI_excl hc23 (by decide); rw [if_neg (by simp [hnf])]), (by have hnf : matchCI k (strB "AllowedMachines") = false := matchCI_excl hc23 (by decide); rw [if_neg (by simp [hnf])])⟩
                                              · rw [if_neg hc23] at h
                                                by_cases hc24 : matchCI k (strB "SignDate") = true
                                                · rw [if_pos hc24] at h
                                                  obtain ⟨x, hx, rfl⟩ := map_ok_proj h
                                                  exact ⟨(by have hnf : matchCI k (strB "Created") = false := matchCI_excl hc24 (by decide); rw [if_neg (by simp [hnf])]), (by have hnf : matchCI k (strB "Expires") = false := matchCI_excl hc24 (by decide); rw [if_neg (by simp [hnf])]), (by rw [if_pos hc24]; exact asInt64_ok hx), (by have hnf : matchCI k (strB "AllowedMachines") = false := matchCI_excl hc24 (by decide); rw [if_neg (by simp [hnf])])⟩
                                                · rw [if_neg hc24] at h
                                                  cases h
                                                  exact ⟨(by rw [if_neg hc4]), (by rw [if_neg hc5]), (by rw [if_neg hc24]), (by rw [if_neg hc22])⟩

theorem setFieldAR_char (acc : ActivateResponseT) (k : GoStr) (v : Json) (a : ActivateResponseT)
    (h : setFieldAR acc k v = .ok a) :
    a.LicenseKey = (if matchCI k (strB "licenseKey") then jStr v acc.LicenseKey else acc.LicenseKey) ∧
      a.Signature = (if matchCI k (strB "signature") then jStr v acc.Signature else acc.Signature) := by
  unfold setFieldAR at h
  by_cases hc1 : matchCI k (strB "licenseKey") = true
  · rw [if_pos hc1] at h
    obtain ⟨x, hx, rfl⟩ := map_ok_proj h
    exact ⟨(by rw [if_pos hc1]; exact asStr_ok hx), (by have hnf : matchCI k (strB "signature") = false := matchCI_excl hc1 (by decide); rw [if_neg (by simp [hnf])])⟩
  · rw [if_neg hc1] at h
    by_cases hc2 : matchCI k (strB "signature") = true
    · rw [if_pos hc2] at h
      obtain ⟨x, hx, rfl⟩ := map_ok_proj h
      exact ⟨(by have hnf : matchCI k (strB "licenseKey") = false := matchCI_excl hc2 (by decide); rw [if_neg (by simp [hnf])]), (by rw [if_pos hc2]; exact asStr_ok hx)⟩
    · rw [if_neg hc2] at h
      by_cases hc3 : matchCI k (strB "result") = true
      · rw [if_pos hc3] at h
        obtain ⟨x, hx, rfl⟩ := map_ok_proj h
        exact ⟨(by have hnf : matchCI k (strB "licenseKey") = false := matchCI_excl hc3 (by decide); rw [if_neg (by simp [hnf])]), (by have hnf : matchCI k (strB "signature") = false := matchCI_excl hc3 (by decide); rw [if_neg (by simp [hnf])])⟩
      · rw [if_neg hc3] at h
        by_cases hc4 : matchCI k (strB "message") = true
        · rw [if_pos hc4] at h
          obtain ⟨x, hx, rfl⟩ := map_ok_proj h
          exact ⟨(by have hnf : matchCI k (strB "licenseKey") = false := matchCI_excl hc4 (by decide); rw [if_neg (by simp [hnf])]), (by have hnf : matchCI k (strB "signature") = false := matchCI_excl hc4 (by decide); rw [if_neg (by simp [hnf])])⟩
        · rw [if_neg hc4] at h
          cases h
          exact ⟨(by rw [if_neg hc1]), (by rw [if_neg hc2])⟩

theorem setFieldCust_char (acc : CustomerTemp) (k : GoStr) (v : Json) (a : CustomerTemp)
    (h : setFieldCust acc k v = .ok a) :
    a.Created = (if matchCI k (strB "Created") then jInt v acc.Created else acc.Created) := by
  unfold setFieldCust at h
  by_cases hc1 : matchCI k (strB "Id") = true
  · rw [if_pos hc1] at h
    obtain ⟨x, hx, rfl⟩ := map_ok_proj h
    exact (by have hnf : matchCI k (strB "Created") = false := matchCI_excl hc1 (by decide); rw [if_neg (by simp [hnf])])
  · rw [if_neg hc1] at h
    by_cases hc2 : matchCI k (strB "Name") = true
    · rw [if_pos hc2] at h
      obtain ⟨x, hx, rfl⟩ := map_ok_proj h
      exact (by have hnf : matchCI k (strB "Created") = false := matchCI_excl hc2 (by decide); rw [if_neg (by simp [hnf])])
    · rw [if_neg hc2] at h
      by_cases hc3 : matchCI k (strB "Email") = true
      · rw [if_pos hc3] at h
        obtain ⟨x, hx, rfl⟩ := map_ok_proj h
        exact (by have hnf : matchCI k (strB "Created") = false := matchCI_excl hc3 (by decide); rw [if_neg (by simp [hnf])])
      · rw [if_neg hc3] at h
        by_cases hc4 : matchCI k (strB "CompanyName") = true
        · rw [if_pos hc4] at h
          obtain ⟨x, hx, rfl⟩ := map_ok_proj h
          exact (by have hnf : matchCI k (strB "Created") = false := matchCI_excl hc4 (by decide); rw [if_neg (by simp [hnf])])
        · rw [if_neg hc4] at h
          by_cases hc5 : matchCI k (strB "Created") = true
          · rw [if_pos hc5] at h
            obtain ⟨x, hx, rfl⟩ := map_ok_proj h
            exact (by rw [if_pos hc5]; exact asInt64_ok hx)
          · rw [if_neg hc5] at h
            cases h
            exact (by rw [if_neg hc5])

theorem setFieldAD_char (acc : ActivationDataTemp) (k : GoStr) (v : Json) (a : ActivationDataTemp)
    (h : setFieldAD acc k v = .ok a) :
    a.Time = (if matchCI k (strB "Time") then jInt v acc.Time else acc.Time) := by
  unfold setFieldAD at h
  by_cases hc1 : matchCI k (strB "Mid") = true
  · rw [if_pos hc1] at h
    obtain ⟨x, hx, rfl⟩ := map_ok_proj h
    exact (by have hnf : matchCI k (strB "Time") = false := matchCI_excl hc1 (by decide); rw [if_neg (by simp [hnf])])
  · rw [if_neg hc1] at h
    by_cases hc2 : matchCI k (strB "IP") = true
    · rw [if_pos hc2] at h
      obtain ⟨x, hx, rfl⟩ := map_ok_proj h
      exact (by have hnf : matchCI k (strB "Time") = false := matchCI_excl hc2 (by decide); rw [if_neg (by simp [hnf])])
    · rw [if_neg hc2] at h
      by_cases hc3 : matchCI k (strB "Time") = true
      · rw [if_pos hc3] at h
        obtain ⟨x, hx, rfl⟩ := map_ok_proj h
        exact (by rw [if_pos hc3]; exact asInt64_ok hx)
      · rw [if_neg hc3] at h
        cases h
        exact (by rw [if_neg hc3])

theorem lastFieldCI_no_match {β : Type} {f : Json → β → β} {name : GoStr}
    {ms : List (GoStr × Json)} (h : ∀ kv ∈ ms, matchCI kv.1 name = false)
    (d : β) : lastFieldCI f name ms d = d := by
  induction ms with
  | nil => rfl
  | cons kv tl ih =>
    simp only [lastFieldCI, List.foldl_cons, h kv (by simp)]
    exact ih (fun kv2 h2 => h kv2 (by simp [h2])) 

theorem splitNl_ne_nil (l : GoStr) : splitNl l ≠ [] := by
  cases l with
  | nil => simp [splitNl]
  | cons c rest =>
    show (if c == 10 then [] :: splitNl rest
      else match splitNl rest with
        | h :: t => (c :: h) :: t
        | [] => [[c]]) ≠ []
    cases hc : (c == 10) with
    | true => simp
    | false =>
      simp only [Bool.false_eq_true, if_false]
      cases hs : splitNl rest <;> simp [hs]

/-- C7: for every successfully parsed license payload, `AllowedMachines`
is the incoming string (the last `AllowedMachines` member of the payload
object, starting from the empty string) split on newline bytes; in
particular an empty incoming string yields the one-element list holding
the empty string, not the empty list. -/
theorem c7_allowedMachines_split {ms : List (GoStr × Json)} {k : LicenseKey}
    (h : unmarshalLicenseKey (.obj ms) = .ok k) :
    k.AllowedMachines = splitNl (lastFieldCI jStr (strB "AllowedMachines") ms []) ∧
      (lastFieldCI jStr (strB "AllowedMachines") ms [] = [] →
        k.AllowedMachines = [[]]) := by
  unfold unmarshalLicenseKey unmarshalStruct at h
  obtain ⟨t, ht, rfl⟩ := map_ok_proj h
  have hfold : t.AllowedMachines =
      lastFieldCI jStr (strB "AllowedMachines") ms [] :=
    foldMembers_field setFieldLK (fun t => t.AllowedMachines)
      (strB "AllowedMachines") jStr
      (fun acc k v a hs => (setFieldLK_char acc k v a hs).2.2.2) ms {} t ht
  refine ⟨?_, ?_⟩
  · show splitNl t.AllowedMachines = _
    rw [hfold]
  · intro he
    show splitNl t.AllowedMachines = [[]]
    rw [hfold, he]
    rfl

/-- Witness for C7 at the empty payload object (no `AllowedMachines`
member, so the incoming string is empty). -/
theorem c7_witness :
    unmarshalLicenseKey (.obj []) = .ok { AllowedMachines := [[]] } ∧
      (({ AllowedMachines := [[]] } : LicenseKey).AllowedMachines =
          splitNl (lastFieldCI jStr (strB "AllowedMachines") [] []) ∧
        (lastFieldCI jStr (strB "AllowedMachines") [] [] = [] →
          ({ AllowedMachines := [[]] } : LicenseKey).AllowedMachines = [[]])) :=
  ⟨by rfl, c7_allowedMachines_split (by rfl)⟩

/-- C8: every timestamp field of a successfully parsed license payload —
`Created`, `Expires`, `SignDate` on the license, `Created` on the
customer, `Time` on an activation entry — is the incoming epoch-seconds
integer converted by `time.Unix` into an absolute instant; `0` converts
to the Unix epoch instant (not an absent marker) and `1700000000` to its
corresponding instant. -/
theorem c8_timestamps_unix :
    (∀ (ms : List (GoStr × Json)) (k : LicenseKey),
      unmarshalLicenseKey (.obj ms) = .ok k →
        k.Created = timeUnix (lastFieldCI jInt (strB "Created") ms 0) ∧
        k.Expires = timeUnix (lastFieldCI jInt (strB "Expires") ms 0) ∧
        k.SignDate = timeUnix (lastFieldCI jInt (strB "SignDate") ms 0)) ∧
    (∀ (cs : List (GoStr × Json)) (c : Customer),
      unmarshalCustomer (.obj cs) = .ok c →
        c.Created = timeUnix (lastFieldCI jInt (strB "Created") cs 0)) ∧
    (∀ (as2 : List (GoStr × Json)) (a : ActivationData),
      unmarshalActivationData (.obj as2) = .ok a →
        a.Time = timeUnix (lastFieldCI jInt (strB "Time") as2 0)) ∧
    timeUnix 0 = unixEpoch ∧
    timeUnix 1700000000 = { unixSec := 1700000000 } := by
  refine ⟨?_, ?_, ?_, rfl, rfl⟩
  · intro ms k h
    unfold unmarshalLicenseKey unmarshalStruct at h
    obtain ⟨t, ht, rfl⟩ := map_ok_proj h
    have h1 : t.Created = lastFieldCI jInt (strB "Created") ms 0 :=
      foldMembers_field setFieldLK (fun t => t.Created) (strB "Created") jInt
        (fun acc k v a hs => (setFieldLK_char acc k v a hs).1) ms {} t ht
    have h2 : t.Expires = lastFieldCI jInt (strB "Expires") ms 0 :=
      foldMembers_field setFieldLK (fun t => t.Expires) (strB "Expires") jInt
        (fun acc k v a hs => (setFieldLK_char acc k v a hs).2.1) ms {} t ht
    have h3 : t.SignDate = lastFieldCI jInt (strB "SignDate") ms 0 :=
      foldMembers_field setFieldLK (fun t => t.SignDate) (strB "SignDate") jInt
        (fun acc k v a hs => (setFieldLK_char acc k v a hs).2.2.1) ms {} t ht
    exact ⟨by show timeUnix t.Created = _; rw [h1],
      by show timeUnix t.Expires = _; rw [h2],
      by show timeUnix t.SignDate = _; rw [h3]⟩
  · intro cs c h
    unfold unmarshalCustomer unmarshalStruct at h
    obtain ⟨t, ht, rfl⟩ := map_ok_proj h
    have h1 : t.Created = lastFieldCI jInt (strB "Created") cs 0 :=
      foldMembers_field setFieldCust (fun t => t.Created) (strB "Created") jInt
        (fun acc k v a hs => setFieldCust_char acc k v a hs) cs {} t ht
    show timeUnix t.Created = _
    rw [h1]
  · intro as2 a h
    unfold unmarshalActivationData unmarshalStruct at h
    obtain ⟨t, ht, rfl⟩ := map_ok_proj h
    have h1 : t.Time = lastFieldCI jInt (strB "Time") as2 0 :=
      foldMembers_field setFieldAD (fun t => t.Time) (strB "Time") jInt
        (fun acc k v a hs => setFieldAD_char acc k v a hs) as2 {} t ht
    show timeUnix t.Time = _
    rw [h1]

/-- The license payload members for the C8 witness. -/
def c8wMs : List (GoStr × Json) :=
  [(strB "Created", Json.num 0), (strB "Expires", Json.num 1700000000)]

/-- The license record decoded from `c8wMs`. -/
def c8wLK : LicenseKey :=
  { Created := timeUnix 0, Expires := timeUnix 1700000000, AllowedMachines := [[]] }

/-- Witness for C8: a license payload carrying `Created = 0` (decoding to
the epoch instant) and `Expires = 1700000000`, a customer with
`Created = 1700000000`, and an activation entry with `Time = 0`. -/
theorem c8_witness :
    (c8wLK.Created = timeUnix (lastFieldCI jInt (strB "Created") c8wMs 0) ∧
      c8wLK.Expires = timeUnix (lastFieldCI jInt (strB "Expires") c8wMs 0) ∧
      c8wLK.SignDate = timeUnix (lastFieldCI jInt (strB "SignDate") c8wMs 0)) ∧
    (({ Created := timeUnix 1700000000 } : Customer).Created =
      timeUnix (lastFieldCI jInt (strB "Created")
        [(strB "Created", Json.num 1700000000)] 0)) ∧
    (({ Time := timeUnix 0 } : ActivationData).Time =
      timeUnix (lastFieldCI jInt (strB "Time") [(strB "Time", Json.num 0)] 0)) :=
  ⟨c8_timestamps_unix.1 c8wMs c8wLK (by rfl),
    c8_timestamps_unix.2.1 [(strB "Created", Json.num 1700000000)] _ (by rfl),
    c8_timestamps_unix.2.2.1 [(strB "Time", Json.num 0)] _ (by rfl)⟩

theorem unmarshalLicenseKey_allowed {j : Json} {k : LicenseKey}
    (h : unmarshalLicenseKey j = .ok k) :
    ∃ s, k.AllowedMachines = splitNl s := by
  unfold unmarshalLicenseKey at h
  obtain ⟨t, _, rfl⟩ := map_ok_proj h
  exact ⟨t.AllowedMachines, rfl⟩

/-- C9 (implicit): every `LicenseKey` produced by a successful
`KeyFromBytes` has a non-empty `AllowedMachines` list, because the parser
obtains it by splitting a string on newlines and a split always has at
least one entry. -/
theorem c9_allowedMachines_nonempty {b : GoStr} {k : LicenseKey}
    (h : KeyFromBytes b = .ok k) : 1 ≤ k.AllowedMachines.length := by
  unfold KeyFromBytes at h
  split at h
  · exact absurd h (by simp)
  · unfold keyFromJson at h
    split at h
    · exact absurd h (by simp)
    · unfold keyFromResponse at h
      split at h
      · exact absurd h (by simp)
      · unfold buildLicenseKey at h
        split at h
        · exact absurd h (by simp)
        · split at h
          · exact absurd h (by simp)
          · rename_i k2 hk2
            simp only [Except.ok.injEq] at h
            obtain ⟨s, hs⟩ := unmarshalLicenseKey_allowed hk2
            rw [← h]
            show 1 ≤ k2.AllowedMachines.length
            rw [hs]
            cases hn : splitNl s with
            | nil => exact absurd hn (splitNl_ne_nil s)
            | cons x xs => simp

/-- Witness for C9 at a blob whose license payload is `null` (every field
of the decoded record at its zero value). -/
theorem c9_witness :
    KeyFromBytes (marshalActivateResponse ⟨strB "bnVsbA==", [], 0, []⟩) =
        .ok { AllowedMachines := [[]], licenseKeyBytes := [110, 117, 108, 108] } ∧
      1 ≤ ({ AllowedMachines := [[]], licenseKeyBytes := [110, 117, 108, 108] }
          : LicenseKey).AllowedMachines.length :=
  ⟨by decide,
    @c9_allowedMachines_nonempty (marshalActivateResponse ⟨strB "bnVsbA==", [], 0, []⟩)
      { AllowedMachines := [[]], licenseKeyBytes := [110, 117, 108, 108] }
      (by decide)⟩

/-- Does a JSON document lack (at every key, case-insensitively) the
given field? (Non-objects carry no fields at all.) -/
def lacksKeyCI (j : Json) (name : GoStr) : Bool :=
  match j with
  | .obj ms => ms.all (fun kv => !matchCI kv.1 name)
  | _ => true

/-- C5: a valid JSON document in which the expected `licenseKey` and
`signature` fields are absent never converts into a `LicenseKey`: both
the response-handling path of `KeyActivate` (from the decoded document)
and `KeyFromBytes` fail with an error. -/
theorem c5_missing_fields_fail {b : GoStr} {j : Json}
    (hp : jsonParse b = .ok j)
    (h1 : lacksKeyCI j (strB "licenseKey") = true)
    (h2 : lacksKeyCI j (strB "signature") = true) :
    (keyFromJson j).isOk = false ∧ (KeyFromBytes b).isOk = false := by
  have hmain : (keyFromJson j).isOk = false := by
    unfold keyFromJson
    cases j with
    | obj ms =>
      simp only [lacksKeyCI, List.all_eq_true] at h1
      cases hu : unmarshalActivateResponse (.obj ms) with
      | error e => rfl
      | ok r =>
        have hlk : r.LicenseKey = [] := by
          unfold unmarshalActivateResponse unmarshalStruct at hu
          have h0 : r.LicenseKey =
              lastFieldCI jStr (strB "licenseKey") ms [] :=
            foldMembers_field setFieldAR (fun r => r.LicenseKey)
              (strB "licenseKey") jStr
              (fun acc k v a hs => (setFieldAR_char acc k v a hs).1) ms {} r hu
          rw [h0]
          exact lastFieldCI_no_match
            (fun kv hkv => by simpa using h1 kv hkv) []
        show (keyFromResponse r).isOk = false
        unfold keyFromResponse parseActivateResponse
        rw [hlk]
        cases hsig : b64decode r.Signature with
        | error e => rfl
        | ok s =>
          show (buildLicenseKey [] s).isOk = false
          rfl
    | null => rfl
    | bool bb => cases bb <;> rfl
    | num i => rfl
    | str s => rfl
    | arr es => rfl
  refine ⟨hmain, ?_⟩
  unfold KeyFromBytes
  rw [hp]
  exact hmain

/-- Witness for C5 at the valid JSON document `\x7b\x7d` (the empty
object, which carries neither field). -/
theorem c5_witness :
    jsonParse [123, 125] = .ok (Json.obj []) ∧
      lacksKeyCI (Json.obj []) (strB "licenseKey") = true ∧
      lacksKeyCI (Json.obj []) (strB "signature") = true ∧
      ((keyFromJson (Json.obj [])).isOk = false ∧
        (KeyFromBytes [123, 125]).isOk = false) :=
  ⟨by rfl, by rfl, by rfl, c5_missing_fields_fail (by rfl) (by rfl) (by rfl)⟩

/-! ### C4: insensitivity of the pipeline to `result`/`message` values -/

/-- Is the JSON value an integer representable in `int64`? -/
def isInt64Num : Json → Bool
  | .num i => decide (minInt64 ≤ i ∧ i ≤ maxInt64)
  | _ => false

/-- Is the JSON value a string? -/
def isStrVal : Json → Bool
  | .str _ => true
  | _ => false

/-- Two members agree except possibly in a type-correct `result` or
`message` value. -/
def MemberRelRM (p q : GoStr × Json) : Prop :=
  p.1 = q.1 ∧
    ((matchCI p.1 (strB "result") = true ∧
        isInt64Num p.2 = true ∧ isInt64Num q.2 = true) ∨
      (matchCI p.1 (strB "message") = true ∧
        isStrVal p.2 = true ∧ isStrVal q.2 = true) ∨
      p.2 = q.2)

/-- Outcomes of decoding two related documents: same error, or responses
agreeing on the fields the pipeline reads. -/
def relOutcome : Except GoError ActivateResponseT →
    Except GoError ActivateResponseT → Prop
  | .error e1, .error e2 => e1 = e2
  | .ok r1, .ok r2 =>
    r1.LicenseKey = r2.LicenseKey ∧ r1.Signature = r2.Signature
  | _, _ => False

theorem setFieldAR_rel {acc1 acc2 : ActivateResponseT}
    (hL : acc1.LicenseKey = acc2.LicenseKey)
    (hS : acc1.Signature = acc2.Signature)
    {k : GoStr} {v1 v2 : Json} (hrel : MemberRelRM (k, v1) (k, v2)) :
    relOutcome (setFieldAR acc1 k v1) (setFieldAR acc2 k v2) := by
  rcases hrel.2 with ⟨hres, hi1, hi2⟩ | ⟨hmsg, hs1, hs2⟩ | heq
  · -- both are in-range numbers under a `result` key
    have n1 : matchCI k (strB "licenseKey") = false :=
      matchCI_excl hres (by decide)
    have n2 : matchCI k (strB "signature") = false :=
      matchCI_excl hres (by decide)
    cases v1 with
    | num i1 =>
      cases v2 with
      | num i2 =>
        simp only [isInt64Num, decide_eq_true_eq] at hi1 hi2
        unfold setFieldAR
        rw [if_neg (by simp [n1]), if_neg (by simp [n2]), if_pos hres,
          if_neg (by simp [n1]), if_neg (by simp [n2]), if_pos hres]
        simp only [asInt64, if_pos hi1, if_pos hi2, Except.map]
        exact ⟨hL, hS⟩
      | null => exact absurd hi2 (by simp [isInt64Num])
      | bool b => exact absurd hi2 (by simp [isInt64Num])
      | str s => exact absurd hi2 (by simp [isInt64Num])
      | arr es => exact absurd hi2 (by simp [isInt64Num])
      | obj ms => exact absurd hi2 (by simp [isInt64Num])
    | null => exact absurd hi1 (by simp [isInt64Num])
    | bool b => exact absurd hi1 (by simp [isInt64Num])
    | str s => exact absurd hi1 (by simp [isInt64Num])
    | arr es => exact absurd hi1 (by simp [isInt64Num])
    | obj ms => exact absurd hi1 (by simp [isInt64Num])
  · -- both are strings under a `message` key
    have n1 : matchCI k (strB "licenseKey") = false :=
      matchCI_excl hmsg (by decide)
    have n2 : matchCI k (strB "signature") = false :=
      matchCI_excl hmsg (by decide)
    have n3 : matchCI k (strB "result") = false :=
      matchCI_excl hmsg (by decide)
    cases v1 with
    | str s1 =>
      cases v2 with
      | str s2 =>
        unfold setFieldAR
        rw [if_neg (by simp [n1]), if_neg (by simp [n2]), if_neg (by simp [n3]),
          if_pos hmsg, if_neg (by simp [n1]), if_neg (by simp [n2]),
          if_neg (by simp [n3]), if_pos hmsg]
        simp only [asStr, Except.map]
        exact ⟨hL, hS⟩
      | null => exact absurd hs2 (by simp [isStrVal])
      | bool b => exact absurd hs2 (by simp [isStrVal])
      | num i => exact absurd hs2 (by simp [isStrVal])
      | arr es => exact absurd hs2 (by simp [isStrVal])
      | obj ms => exact absurd hs2 (by simp [isStrVal])
    | null => exact absurd hs1 (by simp [isStrVal])
    | bool b => exact absurd hs1 (by simp [isStrVal])
    | num i => exact absurd hs1 (by simp [isStrVal])
    | arr es => exact absurd hs1 (by simp [isStrVal])
    | obj ms => exact absurd hs1 (by simp [isStrVal])
  · -- identical values: both runs take the same branch
    subst heq
    unfold setFieldAR
    by_cases c1 : matchCI k (strB "licenseKey") = true
    · rw [if_pos c1, if_pos c1]
      cases v1 with
      | null => simp only [asStr, Except.map]; exact ⟨hL, hS⟩
      | str s => simp only [asStr, Except.map]; exact ⟨rfl, hS⟩
      | num i => simp only [asStr, Except.map]; rfl
      | bool b => simp only [asStr, Except.map]; rfl
      | arr es => simp only [asStr, Except.map]; rfl
      | obj ms => simp only [asStr, Except.map]; rfl
    · rw [if_neg c1, if_neg c1]
      by_cases c2 : matchCI k (strB "signature") = true
      · rw [if_pos c2, if_pos c2]
        cases v1 with
        | null => simp only [asStr, Except.map]; exact ⟨hL, hS⟩
        | str s => simp only [asStr, Except.map]; exact ⟨hL, rfl⟩
        | num i => simp only [asStr, Except.map]; rfl
        | bool b => simp only [asStr, Except.map]; rfl
        | arr es => simp only [asStr, Except.map]; rfl
        | obj ms => simp only [asStr, Except.map]; rfl
      · rw [if_neg c2, if_neg c2]
        by_cases c3 : matchCI k (strB "result") = true
        · rw [if_pos c3, if_pos c3]
          cases v1 with
          | null => simp only [asInt64, Except.map]; exact ⟨hL, hS⟩
          | num i =>
            simp only [asInt64]
            split_ifs with hr
            · simp only [Except.map]
              exact ⟨hL, hS⟩
            · rfl
          | str s => simp only [asInt64, Except.map]; rfl
          | bool b => simp only [asInt64, Except.map]; rfl
          | arr es => simp only [asInt64, Except.map]; rfl
          | obj ms => simp only [asInt64, Except.map]; rfl
        · rw [if_neg c3, if_neg c3]
          by_cases c4 : matchCI k (strB "message") = true
          · rw [if_pos c4, if_pos c4]
            cases v1 with
            | null => simp only [asStr, Except.map]; exact ⟨hL, hS⟩
            | str s => simp only [asStr, Except.map]; exact ⟨hL, hS⟩
            | num i => simp only [asStr, Except.map]; rfl
            | bool b => simp only [asStr, Except.map]; rfl
            | arr es => simp only [asStr, Except.map]; rfl
            | obj ms => simp only [asStr, Except.map]; rfl
          · rw [if_neg c4, if_neg c4]
            exact ⟨hL, hS⟩

theorem foldAR_rel : ∀ {m1 m2 : List (GoStr × Json)},
    List.Forall₂ MemberRelRM m1 m2 →
    ∀ {acc1 acc2 : ActivateResponseT},
      acc1.LicenseKey = acc2.LicenseKey → acc1.Signature = acc2.Signature →
      relOutcome (foldMembers setFieldAR acc1 m1)
        (foldMembers setFieldAR acc2 m2) := by
  intro m1 m2 hrel
  induction hrel with
  | nil => intro acc1 acc2 hL hS; exact ⟨hL, hS⟩
  | cons hpair htl ih =>
    intro acc1 acc2 hL hS
    rename_i p q t1 t2
    have hk : p.1 = q.1 := hpair.1
    rw [foldMembers, foldMembers]
    have hstep : relOutcome (setFieldAR acc1 p.1 p.2) (setFieldAR acc2 q.1 q.2) := by
      rw [← hk]
      exact setFieldAR_rel hL hS ⟨rfl, hpair.2⟩
    cases hs1 : setFieldAR acc1 p.1 p.2 with
    | error e1 =>
      cases hs2 : setFieldAR acc2 q.1 q.2 with
      | error e2 =>
        rw [hs1, hs2] at hstep
        exact hstep
      | ok a2 =>
        rw [hs1, hs2] at hstep
        exact absurd hstep (by simp [relOutcome])
    | ok a1 =>
      cases hs2 : setFieldAR acc2 q.1 q.2 with
      | error e2 =>
        rw [hs1, hs2] at hstep
        exact absurd hstep (by simp [relOutcome])
      | ok a2 =>
        rw [hs1, hs2] at hstep
        exact ih hstep.1 hstep.2

/-- C4 (amended): two activation-response / persisted-blob documents that
are identical except in the values of their `result` (any integer
representable in `int64`) and `message` (any string) fields produce
identical outcomes, on the response-handling path of `KeyActivate` and on
`KeyFromBytes` alike: the same `LicenseKey` on success and the same
failure on error. -/
theorem c4_result_message_ignored {b1 b2 : GoStr}
    {m1 m2 : List (GoStr × Json)}
    (hp1 : jsonParse b1 = .ok (.obj m1)) (hp2 : jsonParse b2 = .ok (.obj m2))
    (hrel : List.Forall₂ MemberRelRM m1 m2) :
    keyFromJson (.obj m1) = keyFromJson (.obj m2) ∧
      KeyFromBytes b1 = KeyFromBytes b2 := by
  have hfold : relOutcome (foldMembers setFieldAR {} m1)
      (foldMembers setFieldAR {} m2) := foldAR_rel hrel rfl rfl
  have hmain : keyFromJson (.obj m1) = keyFromJson (.obj m2) := by
    show (match foldMembers setFieldAR {} m1 with
        | .error e => (.error e : Except GoError LicenseKey)
        | .ok r => keyFromResponse r) =
      (match foldMembers setFieldAR {} m2 with
        | .error e => (.error e : Except GoError LicenseKey)
        | .ok r => keyFromResponse r)
    cases hr1 : foldMembers setFieldAR {} m1 with
    | error e1 =>
      cases hr2 : foldMembers setFieldAR {} m2 with
      | error e2 =>
        rw [hr1, hr2] at hfold
        have he : e1 = e2 := hfold
        rw [he]
      | ok r2 =>
        rw [hr1, hr2] at hfold
        exact absurd hfold (by simp [relOutcome])
    | ok r1 =>
      cases hr2 : foldMembers setFieldAR {} m2 with
      | error e2 =>
        rw [hr1, hr2] at hfold
        exact absurd hfold (by simp [relOutcome])
      | ok r2 =>
        rw [hr1, hr2] at hfold
        have hok : r1.LicenseKey = r2.LicenseKey ∧ r1.Signature = r2.Signature :=
          hfold
        show keyFromResponse r1 = keyFromResponse r2
        unfold keyFromResponse parseActivateResponse
        rw [hok.1, hok.2]
  refine ⟨hmain, ?_⟩
  unfold KeyFromBytes
  rw [hp1, hp2]
  exact hmain

/-- Counterexample to C4 as stated: two blobs identical except in the
value of their `result` field — `0` versus the integer `2^64`, which the
wire contract's "result: integer" admits — produce different outcomes:
the first deserializes successfully, the second fails, because
`json.Unmarshal` type-checks (and range-checks) the `result` field before
the license field is base64-decoded. -/
theorem c4_counterexample :
    (KeyFromBytes (marshalActivateResponse ⟨strB "e30=", [], 0, []⟩)).isOk
        = true ∧
      (KeyFromBytes (marshalActivateResponse
          ⟨strB "e30=", [], 18446744073709551616, []⟩)).isOk = false ∧
      KeyFromBytes (marshalActivateResponse ⟨strB "e30=", [], 0, []⟩) ≠
        KeyFromBytes (marshalActivateResponse
          ⟨strB "e30=", [], 18446744073709551616, []⟩) :=
  ⟨by decide, by decide, by decide⟩

/-- The members of the two C4 witness documents. -/
def c4wM1 : List (GoStr × Json) :=
  [(strB "licenseKey", .str (strB "e30=")), (strB "signature", .str []),
   (strB "result", .num 0), (strB "message", .str [])]

/-- Like `c4wM1` with `result = 5` and `message = "x"`. -/
def c4wM2 : List (GoStr × Json) :=
  [(strB "licenseKey", .str (strB "e30=")), (strB "signature", .str []),
   (strB "result", .num 5), (strB "message", .str [120])]

/-- Witness for C4 (amended) at two concrete blobs differing in their
`result` and `message` values. -/
theorem c4_witness :
    keyFromJson (.obj c4wM1) = keyFromJson (.obj c4wM2) ∧
      KeyFromBytes (marshalActivateResponse ⟨strB "e30=", [], 0, []⟩) =
        KeyFromBytes (marshalActivateResponse ⟨strB "e30=", [], 5, [120]⟩) :=
  c4_result_message_ignored (by rfl) (by rfl)
    (.cons ⟨rfl, Or.inr (Or.inr rfl)⟩
      (.cons ⟨rfl, Or.inr (Or.inr rfl)⟩
        (.cons ⟨rfl, Or.inl ⟨by rfl, by rfl, by rfl⟩⟩
          (.cons ⟨rfl, Or.inr (Or.inl ⟨by rfl, by rfl, by rfl⟩)⟩ .nil))))

/-! ### C3: oversized exponents are rejected -/

/-- C3: `HasValidSignature` is a total boolean function (a Lean `def`
returning `Bool`); in particular, whenever the descriptor's `Exponent`
element base64-decodes to an unsigned integer of 64 bits or more (one
that does not fit a signed 64-bit integer), it returns `false` rather
than attempting modular exponentiation. -/
theorem c3_exponent_bound {lk : LicenseKey} {pk : GoStr}
    {kv : RSAKeyValue} {eB : GoStr}
    (h1 : xmlUnmarshalRSAKeyValue pk = .ok kv)
    (h2 : b64decode kv.Exponent = .ok eB)
    (h3 : int64Bound ≤ natOfBytesBE eB) :
    HasValidSignature lk pk = false := by
  unfold HasValidSignature
  rw [h1]
  show (match b64decode kv.Modulus with
    | .error _ => false
    | .ok modulusBytes =>
      match b64decode kv.Exponent with
      | .error _ => false
      | .ok exponentBytes =>
        if int64Bound ≤ natOfBytesBE exponentBytes then false
        else
          verifyPKCS1v15SHA256 (natOfBytesBE modulusBytes)
            (natOfBytesBE exponentBytes)
            (sha256 lk.licenseKeyBytes) lk.signatureBytes) = false
  cases hm : b64decode kv.Modulus with
  | error e => rfl
  | ok mB =>
    rw [h2]
    simp [h3]

/-- The public-key descriptor of the C3 witness: its exponent decodes to
`2^64`. -/
def c3wPk : GoStr :=
  strB "<RSAKeyValue><Modulus>AQAB</Modulus><Exponent>AQAAAAAAAAAA</Exponent></RSAKeyValue>"

/-- Witness for C3 at a descriptor whose exponent is `2^64`. -/
theorem c3_witness :
    xmlUnmarshalRSAKeyValue c3wPk =
        .ok { Modulus := strB "AQAB", Exponent := strB "AQAAAAAAAAAA" } ∧
      b64decode (strB "AQAAAAAAAAAA") = .ok [1, 0, 0, 0, 0, 0, 0, 0, 0] ∧
      int64Bound ≤ natOfBytesBE [1, 0, 0, 0, 0, 0, 0, 0, 0] ∧
      HasValidSignature {} c3wPk = false :=
  ⟨by decide, by decide, by decide,
    @c3_exponent_bound {} c3wPk
      { Modulus := strB "AQAB", Exponent := strB "AQAAAAAAAAAA" }
      [1, 0, 0, 0, 0, 0, 0, 0, 0] (by decide) (by decide) (by decide)⟩

/-! ### C2: the verifier agrees with the PKCS#1 v1.5 signature predicate -/

theorem bytesBEOfNat_length (k n : Nat) : (bytesBEOfNat k n).length = k := by
  induction k generalizing n with
  | zero => rfl
  | succ k ih => simp [bytesBEOfNat, ih]

theorem powMod_eq (b e n : Nat) : powMod b e n = b ^ e % n := by
  induction e using Nat.strong_induction_on generalizing b with
  | _ e ih =>
    rw [powMod]
    by_cases he : e = 0
    · simp [he]
    · have hlt : e / 2 < e := Nat.div_lt_self (Nat.pos_of_ne_zero he) (by omega)
      have key : ∀ x m, (x % n) ^ m % n = x ^ m % n :=
        fun x m => (Nat.pow_mod x m n).symm
      simp only [he, if_false]
      rw [ih (e / 2) hlt]
      by_cases hp : e % 2 = 1
      · rw [if_pos hp]
        have hsplit : e = 2 * (e / 2) + 1 := by omega
        conv_rhs => rw [hsplit]
        rw [pow_add, pow_mul, pow_one, pow_two]
        conv_rhs => rw [Nat.mul_mod]
        simp only [key]
      · rw [if_neg hp]
        have hsplit : e = 2 * (e / 2) := by omega
        conv_rhs => rw [hsplit]
        rw [pow_mul, pow_two]
        simp only [key]

theorem sha256compress_length (st : List Nat) (c : GoStr) :
    (sha256compress st c).length = st.length := by
  unfold sha256compress
  split
  · next a b c2 d e f g h2 => simp
  · rfl

theorem sha256chunks_length (st : List Nat) (l : GoStr) :
    (sha256chunks st l).length = st.length := by
  induction st, l using sha256chunks.induct with
  | case1 st => rw [sha256chunks, if_pos rfl]
  | case2 st l hl ih =>
    rw [sha256chunks, if_neg hl]
    rw [ih, sha256compress_length]

theorem sha256_length (msg : GoStr) : (sha256 msg).length = 32 := by
  unfold sha256
  have hlen : (sha256chunks sha256H0 (sha256pad msg)).length = 8 :=
    sha256chunks_length _ _
  have hgen : ∀ (l : List Nat),
      (l.flatMap (fun w => bytesBEOfNat 4 w)).length = 4 * l.length := by
    intro l
    induction l with
    | nil => rfl
    | cons x xs ih =>
      simp only [List.flatMap_cons, List.length_append, ih, bytesBEOfNat_length,
        List.length_cons]
      ring
  rw [hgen, hlen]

theorem emChecks_iff {k : Nat} {hashed em : GoStr} (hk : 62 ≤ k)
    (hem : em.length = k) :
    emChecks k hashed em = true ↔
      em = 0 :: 1 :: (List.replicate (k - 54) 255 ++
        0 :: (digestInfoSHA256 ++ hashed)) := by
  have hD : digestInfoSHA256.length = 19 := by decide
  constructor
  · intro hc
    simp only [emChecks, Bool.and_eq_true, decide_eq_true_eq, List.all_eq_true,
      beq_iff_eq] at hc
    obtain ⟨⟨⟨⟨c1, c2⟩, c3⟩, c4⟩, c5⟩ := hc
    have e0 : em = em.take 2 ++ em.drop 2 := (List.take_append_drop 2 em).symm
    have e1 : em.drop 2 =
        (em.drop 2).take (k - 54) ++ (em.drop 2).drop (k - 54) :=
      (List.take_append_drop (k - 54) (em.drop 2)).symm
    have e2 : (em.drop 2).take (k - 54) = List.replicate (k - 54) 255 := by
      rw [List.eq_replicate_iff]
      refine ⟨?_, c4⟩
      rw [List.length_take, List.length_drop, hem]
      omega
    have e3 : (em.drop 2).drop (k - 54) = em.drop (k - 52) := by
      rw [List.drop_drop]
      congr 1
      omega
    have hlt : k - 52 < em.length := by omega
    have h51 : k - 52 + 1 = k - 51 := by omega
    have e4 : em.drop (k - 52) = em[k - 52] :: em.drop (k - 51) := by
      rw [List.drop_eq_getElem_cons hlt, h51]
    have e5 : em[k - 52] = 0 := by
      rw [List.getD_eq_getElem?_getD, List.getElem?_eq_getElem hlt] at c5
      exact c5
    have e6 : em.drop (k - 51) =
        (em.drop (k - 51)).take 19 ++ (em.drop (k - 51)).drop 19 :=
      (List.take_append_drop 19 (em.drop (k - 51))).symm
    have e7 : (em.drop (k - 51)).drop 19 = em.drop (k - 32) := by
      rw [List.drop_drop]
      congr 1
      omega
    conv_lhs => rw [e0, c1, e1, e2, e3, e4, e5, e6, c3, e7, c2]
    rfl
  · intro he
    subst he
    simp only [emChecks, Bool.and_eq_true, decide_eq_true_eq, List.all_eq_true,
      beq_iff_eq]
    refine ⟨⟨⟨⟨rfl, ?_⟩, ?_⟩, ?_⟩, ?_⟩
    · -- drop (k - 32) recovers the hash
      rw [show k - 32 = ((k - 54) + 20) + 2 from by omega]
      show (List.replicate (k - 54) 255 ++
        0 :: (digestInfoSHA256 ++ hashed)).drop ((k - 54) + 20) = hashed
      rw [show (k - 54) + 20 =
          (List.replicate (k - 54) (255 : Fin 256)).length + 20
          from by rw [List.length_replicate], List.drop_append]
      show (digestInfoSHA256 ++ hashed).drop 19 = hashed
      exact List.drop_left' hD
    · -- take 19 after drop (k - 51) recovers the DigestInfo prefix
      rw [show k - 51 = ((k - 54) + 1) + 2 from by omega]
      show ((List.replicate (k - 54) 255 ++
        0 :: (digestInfoSHA256 ++ hashed)).drop ((k - 54) + 1)).take 19 =
        digestInfoSHA256
      rw [show (k - 54) + 1 =
          (List.replicate (k - 54) (255 : Fin 256)).length + 1
          from by rw [List.length_replicate], List.drop_append]
      show (digestInfoSHA256 ++ hashed).take 19 = digestInfoSHA256
      exact List.take_left' hD
    · -- the filler bytes are all 255
      intro b hb
      rw [show ((0 : Fin 256) :: 1 :: (List.replicate (k - 54) 255 ++
          0 :: (digestInfoSHA256 ++ hashed))).drop 2 =
          List.replicate (k - 54) 255 ++ 0 :: (digestInfoSHA256 ++ hashed)
          from rfl] at hb
      rw [List.take_left' (by rw [List.length_replicate])] at hb
      exact List.eq_of_mem_replicate hb
    · -- the zero separator
      rw [List.getD_eq_getElem?_getD]
      rw [show k - 52 = ((k - 54) + 1) + 1 from by omega]
      rw [List.getElem?_cons_succ, List.getElem?_cons_succ]
      rw [List.getElem?_append_right (by simp)]
      simp

/-- The property in the spec's words: the signature bytes are a valid RSA
PKCS#1 v1.5 signature over the SHA-256 digest of the raw license bytes,
taken exactly as given, under the public key `(n, e)` — the signature is
one block of modulus size carrying an integer below the modulus whose
`e`-th power modulo `n` is the padded encoding
`00 01 FF…FF 00 ‖ DigestInfo ‖ SHA-256(raw)` with at least eight filler
bytes (RFC 8017, EMSA-PKCS1-v1_5). -/
def IsValidPKCS1SigSHA256 (n e : Nat) (raw sig : GoStr) : Prop :=
  sig.length = rsaSize n ∧ natOfBytesBE sig < n ∧
    ∃ ps, 8 ≤ ps ∧
      bytesBEOfNat (rsaSize n) (natOfBytesBE sig ^ e % n) =
        0 :: 1 :: (List.replicate ps 255 ++
          0 :: (digestInfoSHA256 ++ sha256 raw))

theorem verify_iff (n e : Nat) (raw sig : GoStr) :
    verifyPKCS1v15SHA256 n e (sha256 raw) sig = true ↔
      IsValidPKCS1SigSHA256 n e raw sig := by
  have hD : digestInfoSHA256.length = 19 := by decide
  unfold verifyPKCS1v15SHA256 IsValidPKCS1SigSHA256
  rw [if_neg (show ¬(sha256 raw).length ≠ 32 from by simp [sha256_length])]
  by_cases h62 : rsaSize n < 62
  · rw [if_pos h62]
    simp only [Bool.false_eq_true, false_iff]
    rintro ⟨hlen, hm, ps, hps, hemEq⟩
    have hL := congrArg List.length hemEq
    rw [bytesBEOfNat_length] at hL
    simp only [List.length_cons, List.length_append, List.length_replicate,
      hD, sha256_length] at hL
    omega
  · rw [if_neg h62]
    by_cases hsl : sig.length ≠ rsaSize n
    · rw [if_pos hsl]
      simp only [Bool.false_eq_true, false_iff]
      rintro ⟨hlen, _⟩
      exact hsl hlen
    · rw [if_neg hsl]
      by_cases hrange : n ≤ natOfBytesBE sig
      · rw [if_pos hrange]
        simp only [Bool.false_eq_true, false_iff]
        rintro ⟨_, hm, _⟩
        omega
      · rw [if_neg hrange]
        rw [powMod_eq]
        rw [emChecks_iff (by omega) (bytesBEOfNat_length _ _)]
        constructor
        · intro he
          exact ⟨by omega, by omega, rsaSize n - 54, by omega, he⟩
        · rintro ⟨hlen, hm, ps, hps, hemEq⟩
          have hL := congrArg List.length hemEq
          rw [bytesBEOfNat_length] at hL
          simp only [List.length_cons, List.length_append, List.length_replicate,
            hD, sha256_length] at hL
          have hps2 : ps = rsaSize n - 54 := by omega
          rw [← hps2]
          exact hemEq

/-- C2: under a well-formed public key descriptor whose modulus and
exponent decode to `(n, e)` with `e` fitting a signed 64-bit integer,
`HasValidSignature` returns `true` exactly when the stored signature
bytes are a valid RSA PKCS#1 v1.5 signature over the SHA-256 digest of
the stored raw license bytes under `(n, e)`; every mismatch, including a
malformed signature length, yields `false`. -/
theorem c2_hasValidSignature_iff {lk : LicenseKey} {pk : GoStr}
    {kv : RSAKeyValue} {mB eB : GoStr}
    (h1 : xmlUnmarshalRSAKeyValue pk = .ok kv)
    (h2 : b64decode kv.Modulus = .ok mB)
    (h3 : b64decode kv.Exponent = .ok eB)
    (h4 : natOfBytesBE eB < int64Bound) :
    (HasValidSignature lk pk = true ↔
      IsValidPKCS1SigSHA256 (natOfBytesBE mB) (natOfBytesBE eB)
        lk.licenseKeyBytes lk.signatureBytes) := by
  unfold HasValidSignature
  rw [h1]
  show (match b64decode kv.Modulus with
    | .error _ => false
    | .ok modulusBytes =>
      match b64decode kv.Exponent with
      | .error _ => false
      | .ok exponentBytes =>
        if int64Bound ≤ natOfBytesBE exponentBytes then false
        else
          verifyPKCS1v15SHA256 (natOfBytesBE modulusBytes)
            (natOfBytesBE exponentBytes)
            (sha256 lk.licenseKeyBytes) lk.signatureBytes) = true ↔ _
  rw [h2, h3]
  show (if int64Bound ≤ natOfBytesBE eB then false
    else verifyPKCS1v15SHA256 (natOfBytesBE mB) (natOfBytesBE eB)
      (sha256 lk.licenseKeyBytes) lk.signatureBytes) = true ↔ _
  rw [if_neg (by omega)]
  exact verify_iff _ _ _ _

/-- The public-key descriptor of the C2 witness (a real 512-bit RSA key,
exponent 65537). -/
def c2wPk : GoStr :=
  strB "<RSAKeyValue><Modulus>u+iw8HNk3CfE8qdJJiiMWW9EmjI94SU3ulR1VKnVVSngbSoMPWBE0x8zrvKCxKBd2YDoKciT47K0hBns99Y+TQ==</Modulus><Exponent>AQAB</Exponent></RSAKeyValue>"

/-- The modulus bytes of `c2wPk`. -/
def c2wMod : GoStr :=
  [187, 232, 176, 240, 115, 100, 220, 39, 196, 242, 167, 73, 38, 40, 140, 89,
   111, 68, 154, 50, 61, 225, 37, 55, 186, 84, 117, 84, 169, 213, 85, 41,
   224, 109, 42, 12, 61, 96, 68, 211, 31, 51, 174, 242, 130, 196, 160, 93,
   217, 128, 232, 41, 200, 147, 227, 178, 180, 132, 25, 236, 247, 214, 62, 77]

/-- Witness for C2 at `c2wPk` and the `LicenseKey` zero value. -/
theorem c2_witness :
    xmlUnmarshalRSAKeyValue c2wPk =
        .ok { Modulus := strB "u+iw8HNk3CfE8qdJJiiMWW9EmjI94SU3ulR1VKnVVSngbSoMPWBE0x8zrvKCxKBd2YDoKciT47K0hBns99Y+TQ==",
              Exponent := strB "AQAB" } ∧
      natOfBytesBE [1, 0, 1] < int64Bound ∧
      (HasValidSignature {} c2wPk = true ↔
        IsValidPKCS1SigSHA256 (natOfBytesBE c2wMod) (natOfBytesBE [1, 0, 1])
          ([] : GoStr) ([] : GoStr)) :=
  ⟨by decide, by decide,
    @c2_hasValidSignature_iff {} c2wPk
      { Modulus := strB "u+iw8HNk3CfE8qdJJiiMWW9EmjI94SU3ulR1VKnVVSngbSoMPWBE0x8zrvKCxKBd2YDoKciT47K0hBns99Y+TQ==",
        Exponent := strB "AQAB" }
      c2wMod [1, 0, 1] (by decide) (by decide) (by decide) (by decide)⟩
